import Mathlib

/-
  Verification of the Articulation Scene Compiler
  (backend of the articulation-map repository).

  The development shallowly embeds the Python sources:
    - app/services/glb_parser.py       (part-id sanitizer `_generate_unique_id`)
    - app/services/usd_builder.py      (USD stage builder `build_from_parts`)
    - app/services/physics_injector.py (physics annotator `inject_physics`)
    - app/models/schemas.py            (pydantic data model)

  A USD stage is modelled as an explicit record of the prims defined on it
  and of the physics annotations applied to them; the methods of
  `USDBuilder` and `PhysicsInjector` become state-passing functions, and
  methods that can raise (`ValueError` on a missing prim) return
  `Except String`.  Python floats are modelled by rationals.  Python's
  Unicode-aware `str.lower`/`str.isalnum` (used by the part-id
  sanitizer) are modelled faithfully on the ASCII and Latin-1 ranges
  (`py_to_lower`, `py_is_alnum`); the ASCII-only `Char` classifiers are
  used where only ASCII behaviour is relied upon.
-/

deriving instance DecidableEq for Except

namespace AMap

/-! ### Models of the Python string builtins used by the sanitizers -/

/-- Model of Python `s.split('_')` on the character list of `s`:
maximal split at every underscore, keeping empty pieces. -/
def split_underscore : List Char → List (List Char)
  | [] => [[]]
  | '_' :: rest => [] :: split_underscore rest
  | c :: rest =>
    match split_underscore rest with
    | [] => [[c]]
    | p :: ps => (c :: p) :: ps

/-- Model of Python `'_'.join(pieces)`. -/
def join_underscore : List (List Char) → List Char
  | [] => []
  | [p] => p
  | p :: ps => p ++ '_' :: join_underscore ps

/-- The decimal digit characters, used to model Python `str(counter)`. -/
def digit_char (d : Nat) : Char := Char.ofNat (48 + d)

/-- Fueled decimal writer; the fuel `n` is always sufficient for the
argument `n` because `n / 10 < n` for `n > 0`. -/
def nat_digits_aux : Nat → Nat → List Char
  | 0, _ => []
  | _, 0 => []
  | fuel + 1, n + 1 => nat_digits_aux fuel ((n + 1) / 10) ++ [digit_char ((n + 1) % 10)]

/-- Model of Python `str(n)` for a natural number `n` (decimal). -/
def nat_digits (n : Nat) : List Char :=
  if n = 0 then ['0'] else nat_digits_aux n n

/-- Model of one pass of Python `s.replace('__', '_')`:
left-to-right, non-overlapping. -/
def py_replace_uu : List Char → List Char
  | '_' :: '_' :: rest => '_' :: py_replace_uu rest
  | c :: rest => c :: py_replace_uu rest
  | [] => []

/-- Model of Python `'__' in s`. -/
def has_uu : List Char → Bool
  | '_' :: '_' :: _ => true
  | _ :: rest => has_uu rest
  | [] => false

/-- Model of the Python loop `while '__' in s: s = s.replace('__', '_')`,
written with explicit fuel.  Each iteration strictly shrinks the string,
so fuel equal to the string length always suffices
(`collapse_uu_fuel_enough` below). -/
def collapse_uu_fuel : Nat → List Char → List Char
  | 0, s => s
  | fuel + 1, s => if has_uu s then collapse_uu_fuel fuel (py_replace_uu s) else s

def collapse_uu (s : List Char) : List Char := collapse_uu_fuel s.length s

/-! ### `GLBParser._generate_unique_id` (glb_parser.py, lines 175-203) -/

/-- Model of Python's Unicode-aware `str.lower` on one character, on
the ASCII and Latin-1 ranges: `A`-`Z` and the Latin-1 uppercase letters
`À`-`Ö` and `Ø`-`Þ` gain 32; characters above U+00FF are outside the
modelled range and are left unchanged. -/
def py_to_lower (c : Char) : Char :=
  if 65 ≤ c.toNat ∧ c.toNat ≤ 90 then Char.ofNat (c.toNat + 32)
  else if (192 ≤ c.toNat ∧ c.toNat ≤ 214) ∨ (216 ≤ c.toNat ∧ c.toNat ≤ 222) then
    Char.ofNat (c.toNat + 32)
  else c

/-- Model of Python's Unicode-aware `str.isalnum` on one character, on
the ASCII and Latin-1 ranges: the ASCII alphanumerics plus the Latin-1
letters (`ª`, `µ`, `º`, `À`-`Ö`, `Ø`-`ö`, `ø`-`ÿ`) and numerics
(`²`, `³`, `¹`, `¼`, `½`, `¾`); characters above U+00FF are outside the
modelled range and are classified as non-alphanumeric. -/
def py_is_alnum (c : Char) : Bool :=
  c.isAlphanum ||
    decide (c.toNat = 170 ∨ c.toNat = 178 ∨ c.toNat = 179 ∨ c.toNat = 181 ∨
      c.toNat = 185 ∨ c.toNat = 186 ∨ (188 ≤ c.toNat ∧ c.toNat ≤ 190) ∨
      (192 ≤ c.toNat ∧ c.toNat ≤ 214) ∨ (216 ≤ c.toNat ∧ c.toNat ≤ 246) ∨
      (248 ≤ c.toNat ∧ c.toNat ≤ 255))

/-- The sanitisation pipeline of `_generate_unique_id` before the
uniqueness loop:
`base_name.lower()`, keep alphanumerics / replace the rest by `'_'`,
`'_'.join(filter(None, s.split('_')))`, and the `"part"` fallback.
Note that `str.lower` and `str.isalnum` are Unicode-aware: a non-ASCII
alphanumeric such as `É` is lowercased to `é` and kept. -/
def sanitize_part_base (s : List Char) : List Char :=
  let low := s.map py_to_lower
  let mapped := low.map (fun c => if py_is_alnum c then c else '_')
  let joined := join_underscore ((split_underscore mapped).filter (fun p => ¬ p.isEmpty))
  if joined.isEmpty then "part".data else joined

/-- Candidate tried by the uniqueness loop at counter `k`:
the base itself for `k = 0`, and `f"{base}_{k}"` for `k ≥ 1`. -/
def unique_candidate (base : List Char) : Nat → List Char
  | 0 => base
  | k + 1 => base ++ '_' :: nat_digits (k + 1)

/-- Model of the loop
`while unique_name in used_names: unique_name = f"{base}_{counter}"; counter += 1`,
with explicit fuel.  Fuel `used.length + 1` always suffices
(`generate_unique_id_not_used` below). -/
def unique_loop (base : List Char) (used : List String) : List Char → Nat → Nat → List Char
  | cur, _, 0 => cur
  | cur, counter, fuel + 1 =>
    if (String.mk cur) ∈ used then
      unique_loop base used (base ++ '_' :: nat_digits counter) (counter + 1) fuel
    else cur

/-- `GLBParser._generate_unique_id(base_name, used_names)`. -/
def generate_unique_id (base_name : String) (used : List String) : String :=
  let base := sanitize_part_base base_name.data
  String.mk (unique_loop base used base 1 (used.length + 1))

/-! ### `USDBuilder._sanitize_prim_name` (usd_builder.py, lines 263-292) -/

def sanitize_prim_name (name : String) : String :=
  let sanitized := name.data.map (fun c => if c.isAlphanum ∨ c = '_' then c else '_')
  let sanitized :=
    match sanitized with
    | [] => []
    | c :: rest => if c.isDigit then '_' :: c :: rest else c :: rest
  let sanitized := if sanitized.isEmpty then "_unnamed".data else sanitized
  String.mk (collapse_uu sanitized)

/-! ### `PhysicsInjector._sanitize_name` (physics_injector.py, lines 501-510) -/

def sanitize_name (name : String) : String :=
  let sanitized := name.data.map (fun c => if c.isAlphanum ∨ c = '_' then c else '_')
  let sanitized :=
    match sanitized with
    | [] => []
    | c :: rest => if c.isDigit then '_' :: c :: rest else c :: rest
  let sanitized := if sanitized.isEmpty then "_unnamed".data else sanitized
  String.mk (collapse_uu sanitized)

/-- Boolean substring test (used to state facts about logged messages). -/
def contains_sub : List Char → List Char → Bool
  | [], sub => sub.isEmpty
  | c :: rest, sub => sub.isPrefixOf (c :: rest) || contains_sub rest sub

/-! ### Data model (app/models/schemas.py)

`Part`, `Joint` and `ArticulationData` mirror the pydantic models; the
`Literal[...]` constraints of pydantic become well-formedness predicates,
since a request whose fields violate them is rejected before any service
code runs.  Python `float` fields are modelled by `ℚ`. -/

structure Part where
  id : String
  name : String
  type : String
  role : String
  mobility : String
  mass : Option ℚ
  density : Option ℚ
  center_of_mass : Option (ℚ × ℚ × ℚ)
  collision_type : String
deriving DecidableEq

structure Joint where
  name : String
  parent : String
  child : String
  type : String
  axis : ℚ × ℚ × ℚ
  anchor : ℚ × ℚ × ℚ
  lower_limit : Option ℚ
  upper_limit : Option ℚ
  drive_stiffness : Option ℚ
  drive_damping : Option ℚ
  drive_max_force : Option ℚ
  drive_type : String
deriving DecidableEq

structure ArticulationData where
  model_name : String
  parts : List Part
  joints : List Joint
deriving DecidableEq

/-- The joint types admitted by `Joint.type`'s pydantic
`Literal["fixed", "revolute", "prismatic"]` (schemas.py, lines 109-112). -/
def recognized_joint_types : List String := ["fixed", "revolute", "prismatic"]

/-- Well-formedness of a `Joint` as enforced by the pydantic `Literal`
constraints on its `type` and `drive_type` fields: an object violating
them cannot be constructed at the request boundary. -/
def Joint.Wf (j : Joint) : Prop :=
  j.type ∈ recognized_joint_types ∧ j.drive_type ∈ ["position", "velocity", "none"]

/-! ### The USD stage model

A stage records the prims defined on it (path and prim type, in
definition order) together with the physics annotations that
`PhysicsInjector` applies.  `prims` never holds two entries for one path:
`define_prim` models `Define`, which returns the existing prim when the
path is already populated. -/

structure JointRec where
  path : String
  kind : String
  body0 : String
  body1 : String
  axis : Option String
  lower : Option ℚ
  upper : Option ℚ
  hasDrive : Bool
deriving DecidableEq

structure Stage where
  defaultPrimPath : String
  prims : List (String × String)
  artRoots : List String
  rigidBodies : List (String × Bool)
  massAttrs : List (String × ℚ)
  densityAttrs : List (String × ℚ)
  comAttrs : List (String × (ℚ × ℚ × ℚ))
  collisionAPIs : List String
  meshCollisionApprox : List (String × String)
  joints : List JointRec
  warnings : List String
deriving DecidableEq

/-- `stage.GetPrimAtPath(path).IsValid()`. -/
def is_valid_prim (st : Stage) (path : String) : Bool :=
  st.prims.any (fun q => q.1 == path)

/-- `prim.IsA(UsdGeom.Mesh)` for the prim at `path`. -/
def is_mesh_prim (st : Stage) (path : String) : Bool :=
  st.prims.any (fun q => q.1 == path && q.2 == "Mesh")

/-- `Define(stage, path)`: creates the prim if absent, otherwise returns
the existing one unchanged. -/
def define_prim (st : Stage) (path ty : String) : Stage :=
  if is_valid_prim st path then st
  else { st with prims := st.prims ++ [(path, ty)] }

/-! ### `PhysicsInjector` (physics_injector.py)

The `default_density` constructor argument is threaded explicitly as
`dd`; the module-level singleton uses `1000.0`. -/

/-- `PhysicsInjector.apply_articulation_root` (lines 43-65). -/
def apply_articulation_root (st : Stage) (prim_path : String) : Except String Stage :=
  if is_valid_prim st prim_path then
    Except.ok { st with artRoots := st.artRoots ++ [prim_path] }
  else Except.error ("Prim not found: " ++ prim_path)

/-- Model of the Python expression `float(density or self.default_density)`:
`or` takes the default not only when `density` is `None` but also when it
is the falsy float `0.0`. -/
def py_or_default (density : Option ℚ) (dd : ℚ) : ℚ :=
  match density with
  | none => dd
  | some d => if d = 0 then dd else d

/-- `PhysicsInjector.apply_rigid_body` (lines 67-115). -/
def apply_rigid_body (dd : ℚ) (st : Stage) (prim_path : String) (is_kinematic : Bool)
    (mass density : Option ℚ) (center_of_mass : Option (ℚ × ℚ × ℚ)) : Except String Stage :=
  if is_valid_prim st prim_path then
    let st := { st with rigidBodies := st.rigidBodies ++ [(prim_path, is_kinematic)] }
    let st :=
      match mass with
      | some m => { st with massAttrs := st.massAttrs ++ [(prim_path, m)] }
      | none => { st with densityAttrs := st.densityAttrs ++ [(prim_path, py_or_default density dd)] }
    let st :=
      match center_of_mass with
      | some c => { st with comAttrs := st.comAttrs ++ [(prim_path, c)] }
      | none => st
    Except.ok st
  else Except.error ("Prim not found: " ++ prim_path)

/-- `PhysicsInjector.apply_collision` (lines 117-154). -/
def apply_collision (st : Stage) (prim_path collision_type : String) : Except String Stage :=
  if is_valid_prim st prim_path then
    let st := { st with collisionAPIs := st.collisionAPIs ++ [prim_path] }
    if is_mesh_prim st prim_path then
      let approx :=
        if collision_type == "convexHull" then "convexHull"
        else if collision_type == "convexDecomposition" then "convexDecomposition"
        else "none"
      Except.ok { st with meshCollisionApprox := st.meshCollisionApprox ++ [(prim_path, approx)] }
    else Except.ok st
  else Except.error ("Prim not found: " ++ prim_path)

/-- Executable model of Python `abs` on a float (here a rational). -/
def py_abs (q : ℚ) : ℚ := if q < 0 then -q else q

/-- `PhysicsInjector._axis_to_token` (lines 480-499). -/
def axis_to_token (axis : ℚ × ℚ × ℚ) : String :=
  let x := py_abs axis.1
  let y := py_abs axis.2.1
  let z := py_abs axis.2.2
  if x ≥ y ∧ x ≥ z then "X"
  else if y ≥ x ∧ y ≥ z then "Y"
  else "Z"

/-- `PhysicsInjector._find_base_part` (lines 473-478). -/
def find_base_part (parts : List Part) : Option Part :=
  parts.find? (fun p => p.type == "base")

/-- Shared prologue of the three `create_*_joint` methods: resolve the
`root/Joints` container (defining it when absent) when no explicit parent
path is given. -/
def joints_container (st : Stage) : Option String → Stage × String
  | some p => (st, p)
  | none =>
    let p := st.defaultPrimPath ++ "/Joints"
    (define_prim st p "Xform", p)

/-- `PhysicsInjector.create_revolute_joint` (lines 156-238). -/
def create_revolute_joint (st : Stage) (joint_name parent_path child_path : String)
    (axis : ℚ × ℚ × ℚ) (lower_limit upper_limit : Option ℚ)
    (drive_stiffness _drive_damping _drive_max_force : Option ℚ)
    (drive_type : String) (joints_parent_path : Option String) : Stage :=
  let (st, jpp) := joints_container st joints_parent_path
  let joint_path := jpp ++ "/" ++ sanitize_name joint_name
  let st := define_prim st joint_path "PhysicsRevoluteJoint"
  let hasDrive := drive_type != "none" && drive_stiffness.isSome
  { st with joints := st.joints ++
      [{ path := joint_path, kind := "revolute", body0 := parent_path, body1 := child_path,
         axis := some (axis_to_token axis), lower := lower_limit, upper := upper_limit,
         hasDrive := hasDrive }] }

/-- `PhysicsInjector.create_prismatic_joint` (lines 240-321). -/
def create_prismatic_joint (st : Stage) (joint_name parent_path child_path : String)
    (axis : ℚ × ℚ × ℚ) (lower_limit upper_limit : Option ℚ)
    (drive_stiffness _drive_damping _drive_max_force : Option ℚ)
    (drive_type : String) (joints_parent_path : Option String) : Stage :=
  let (st, jpp) := joints_container st joints_parent_path
  let joint_path := jpp ++ "/" ++ sanitize_name joint_name
  let st := define_prim st joint_path "PhysicsPrismaticJoint"
  let hasDrive := drive_type != "none" && drive_stiffness.isSome
  { st with joints := st.joints ++
      [{ path := joint_path, kind := "prismatic", body0 := parent_path, body1 := child_path,
         axis := some (axis_to_token axis), lower := lower_limit, upper := upper_limit,
         hasDrive := hasDrive }] }

/-- `PhysicsInjector.create_fixed_joint` (lines 323-370). -/
def create_fixed_joint (st : Stage) (joint_name parent_path child_path : String)
    (joints_parent_path : Option String) : Stage :=
  let (st, jpp) := joints_container st joints_parent_path
  let joint_path := jpp ++ "/" ++ sanitize_name joint_name
  let st := define_prim st joint_path "PhysicsFixedJoint"
  { st with joints := st.joints ++
      [{ path := joint_path, kind := "fixed", body0 := parent_path, body1 := child_path,
         axis := none, lower := none, upper := none, hasDrive := false }] }

/-- Body of the per-part loop of `inject_physics` (lines 400-424). -/
def process_part (dd : ℚ) (pp : List (String × String)) (st : Stage) (part : Part) :
    Except String Stage :=
  match List.lookup part.id pp with
  | none =>
    Except.ok { st with warnings := st.warnings ++
      ["Part " ++ part.id ++ " not found in USD stage"] }
  | some prim_path =>
    let is_kinematic := part.type == "base"
    match apply_rigid_body dd st prim_path is_kinematic part.mass part.density
        part.center_of_mass with
    | Except.error e => Except.error e
    | Except.ok st2 =>
      let mesh_path := prim_path ++ "/mesh"
      if is_valid_prim st2 mesh_path then apply_collision st2 mesh_path part.collision_type
      else Except.ok st2

/-- Body of the per-joint loop of `inject_physics` (lines 426-469).
An unrecognised `joint.type` falls through every branch of the
`if`/`elif` chain and leaves the stage untouched. -/
def process_joint (pp : List (String × String)) (st : Stage) (j : Joint) : Stage :=
  match List.lookup j.parent pp, List.lookup j.child pp with
  | some parent_path, some child_path =>
    if j.type == "revolute" then
      create_revolute_joint st j.name parent_path child_path j.axis j.lower_limit
        j.upper_limit j.drive_stiffness j.drive_damping j.drive_max_force j.drive_type none
    else if j.type == "prismatic" then
      create_prismatic_joint st j.name parent_path child_path j.axis j.lower_limit
        j.upper_limit j.drive_stiffness j.drive_damping j.drive_max_force j.drive_type none
    else if j.type == "fixed" then
      create_fixed_joint st j.name parent_path child_path none
    else st
  | _, _ =>
    { st with warnings := st.warnings ++
        ["Joint " ++ j.name ++ ": parent or child not found"] }

/-- The per-part loop of `inject_physics`. -/
def annotate_parts (dd : ℚ) (pp : List (String × String)) :
    Stage → List Part → Except String Stage
  | st, [] => Except.ok st
  | st, part :: rest =>
    match process_part dd pp st part with
    | Except.error e => Except.error e
    | Except.ok st2 => annotate_parts dd pp st2 rest

/-- The per-joint loop of `inject_physics`; no branch of the joint loop
can raise, so it is a pure fold. -/
def annotate_joints (pp : List (String × String)) : Stage → List Joint → Stage
  | st, [] => st
  | st, j :: rest => annotate_joints pp (process_joint pp st j) rest

/-- The root-marking phase of `inject_physics` (lines 388-398): mark the
base part's node when it resolves in `part_paths`, else fall back to the
first `part_paths` value (`list(part_paths.values())[0]`), if any. -/
def root_step (st : Stage) (parts : List Part) (pp : List (String × String)) :
    Except String Stage :=
  match find_base_part parts with
  | some bp =>
    match List.lookup bp.id pp with
    | some p => apply_articulation_root st p
    | none =>
      match pp with
      | [] => Except.ok st
      | (_, p0) :: _ => apply_articulation_root st p0
  | none =>
    match pp with
    | [] => Except.ok st
    | (_, p0) :: _ => apply_articulation_root st p0

/-- `PhysicsInjector.inject_physics` (lines 372-471). -/
def inject_physics (dd : ℚ) (st : Stage) (art : ArticulationData)
    (pp : List (String × String)) : Except String Stage :=
  match root_step st art.parts pp with
  | Except.error e => Except.error e
  | Except.ok st1 =>
    match annotate_parts dd pp st1 art.parts with
    | Except.error e => Except.error e
    | Except.ok st2 => Except.ok (annotate_joints pp st2 art.joints)

/-! ### `USDBuilder` (usd_builder.py)

`create_stage` writes the output file and the stage metadata (up axis Z,
meters-per-unit 1.0, both fixed constants); only the prim structure it
creates is relevant to the verified properties. -/

structure MeshData where
  vertices : List (ℚ × ℚ × ℚ)
  faces : List (Nat × Nat × Nat)
  normals : Option (List (ℚ × ℚ × ℚ))
deriving DecidableEq

/-- The subset of a part-info dict read by `build_from_parts`
(`info.get('name', part_id)`); `name` is `none` when the dict has no
`'name'` key. -/
structure PInfo where
  id : String
  name : Option String
deriving DecidableEq

/-- Lookup in the dict comprehension `{p['id']: p for p in part_info}`:
for duplicate ids the last occurrence wins. -/
def lookup_last (l : List PInfo) (id : String) : Option PInfo :=
  l.reverse.find? (fun p => p.id == id)

/-- `USDBuilder.create_stage` (lines 47-84). -/
def create_stage (_filename model_name : String) : Stage :=
  let root_path := "/" ++ sanitize_prim_name model_name
  { defaultPrimPath := root_path, prims := [(root_path, "Xform")], artRoots := [],
    rigidBodies := [], massAttrs := [], densityAttrs := [], comAttrs := [],
    collisionAPIs := [], meshCollisionApprox := [], joints := [], warnings := [] }

/-- `USDBuilder.add_physics_scene` (lines 86-114). -/
def add_physics_scene (st : Stage) : Stage × String :=
  let scene_path := st.defaultPrimPath ++ "/" ++ "PhysicsScene"
  (define_prim st scene_path "PhysicsScene", scene_path)

/-- `USDBuilder.add_mesh_prim` (lines 116-188); the geometry arrays are
written onto the mesh prim unchanged and play no role in the structural
properties below. -/
def add_mesh_prim (st : Stage) (parent_path name : String) (_data : MeshData) :
    Stage × String :=
  let safe_name := sanitize_prim_name name
  let xform_path := parent_path ++ "/" ++ safe_name
  let st := define_prim st xform_path "Xform"
  let mesh_path := xform_path ++ "/mesh"
  let st := define_prim st mesh_path "Mesh"
  (st, xform_path)

/-- The display name used for a part's prim:
`info.get('name', part_id)` over the part-info dict. -/
def effective_name (part_info : List PInfo) (part_id : String) : String :=
  match lookup_last part_info part_id with
  | some i => match i.name with | some n => n | none => part_id
  | none => part_id

/-- The per-mesh loop of `build_from_parts` (lines 226-242), accumulating
the `part_paths` dict in insertion order. -/
def build_loop (part_info : List PInfo) (root_path : String) :
    Stage → List (String × String) → List (String × MeshData) →
    Stage × List (String × String)
  | st, acc, [] => (st, acc)
  | st, acc, (part_id, data) :: rest =>
    let part_name := effective_name part_info part_id
    let r := add_mesh_prim st root_path part_name data
    build_loop part_info root_path r.1 (acc ++ [(part_id, r.2)]) rest

/-- `USDBuilder.build_from_parts` (lines 190-246). -/
def build_from_parts (filename model_name : String)
    (mesh_data : List (String × MeshData)) (part_info : List PInfo) :
    Stage × List (String × String) :=
  let st := create_stage filename model_name
  let root_path := st.defaultPrimPath
  let st := (add_physics_scene st).1
  build_loop part_info root_path st [] mesh_data

/-! ### Spec-side reference definitions

These follow the wording of the specification (not the code) and are
compared with the embedded code in the refinement-style theorems. -/

/-- Axis reduction as worded in the spec: dominant axis with ties toward
X, then Y. -/
def axis_spec (axis : ℚ × ℚ × ℚ) : String :=
  if |axis.1| ≥ |axis.2.1| ∧ |axis.1| ≥ |axis.2.2| then "X"
  else if |axis.2.1| ≥ |axis.1| ∧ |axis.2.1| ≥ |axis.2.2| then "Y"
  else "Z"

/-- The collision-shape funnel as worded in the spec: `convexHull` and
`convexDecomposition` map to themselves, anything else to the
exact-triangle `"none"` tag. -/
def collision_funnel_spec (collision_type : String) : String :=
  if collision_type = "convexHull" then "convexHull"
  else if collision_type = "convexDecomposition" then "convexDecomposition"
  else "none"

/-- The density actually recorded when no explicit mass is given, as the
code computes it: the 1000 default is substituted not only when `density`
is absent but also when it is `0` (Python falsiness of `0.0`). -/
def density_fallback_spec (density : Option ℚ) : ℚ :=
  match density with
  | none => 1000
  | some d => if d = 0 then 1000 else d

/-! ### Basic lemmas about the embedded operations -/

theorem py_abs_eq_abs (q : ℚ) : py_abs q = |q| := by
  unfold py_abs
  split
  · exact (abs_of_neg (by assumption)).symm
  · exact (abs_of_nonneg (le_of_not_lt (by assumption))).symm

/-- Effect of `apply_rigid_body` on success, in closed form. -/
theorem apply_rigid_body_ok {dd : ℚ} {st : Stage} {p : String} {kin : Bool}
    {m d : Option ℚ} {c : Option (ℚ × ℚ × ℚ)} {st' : Stage}
    (h : apply_rigid_body dd st p kin m d c = Except.ok st') :
    st' = { st with
      rigidBodies := st.rigidBodies ++ [(p, kin)],
      massAttrs := st.massAttrs ++ (m.map (fun x => (p, x))).toList,
      densityAttrs := st.densityAttrs ++
        (if m.isSome then [] else [(p, py_or_default d dd)]),
      comAttrs := st.comAttrs ++ (c.map (fun x => (p, x))).toList } := by
  unfold apply_rigid_body at h
  by_cases hv : is_valid_prim st p = true
  · simp only [hv, if_true] at h
    cases m <;> cases c <;> simp_all
  · simp only [Bool.not_eq_true] at hv
    simp [hv] at h

/-- `apply_rigid_body` leaves every field other than the rigid-body and
mass annotations unchanged. -/
theorem apply_rigid_body_frame {dd : ℚ} {st : Stage} {p : String} {kin : Bool}
    {m d : Option ℚ} {c : Option (ℚ × ℚ × ℚ)} {st' : Stage}
    (h : apply_rigid_body dd st p kin m d c = Except.ok st') :
    st'.defaultPrimPath = st.defaultPrimPath ∧ st'.prims = st.prims ∧
    st'.artRoots = st.artRoots ∧ st'.collisionAPIs = st.collisionAPIs ∧
    st'.meshCollisionApprox = st.meshCollisionApprox ∧ st'.joints = st.joints ∧
    st'.warnings = st.warnings := by
  rw [apply_rigid_body_ok h]
  exact ⟨rfl, rfl, rfl, rfl, rfl, rfl, rfl⟩

/-- Test fixture: a stage with the given default prim path and prims and
no annotations yet (as produced by a fresh build). -/
def mk_stage (root : String) (prims : List (String × String)) : Stage :=
  { defaultPrimPath := root, prims := prims, artRoots := [], rigidBodies := [],
    massAttrs := [], densityAttrs := [], comAttrs := [], collisionAPIs := [],
    meshCollisionApprox := [], joints := [], warnings := [] }

/-! ### C7 — axis reduction -/

/-- C7 (confirmed): the stored joint axis token follows the dominant-axis
rule with ties resolved toward X then Y — `_axis_to_token` agrees with the
spec's case analysis on every vector, and the three worked examples of
the spec hold: `(0.9, 0.9, 0) → X`, `(0, 0, -5) → Z`, `(1, 2, 3) → Z`. -/
theorem claim_C7 :
    (∀ v : ℚ × ℚ × ℚ, axis_to_token v = axis_spec v) ∧
    axis_to_token (mkRat 9 10, mkRat 9 10, 0) = "X" ∧
    axis_to_token (0, 0, -5) = "Z" ∧
    axis_to_token (1, 2, 3) = "Z" := by
  refine ⟨fun v => ?_, by decide, by decide, by decide⟩
  simp only [axis_to_token, axis_spec, py_abs_eq_abs]

/-! ### C8 — mass precedence -/

/-- C8, the claim as stated, is false: with `mass` absent and
`density = 0`, the code records the default density 1000, not the part's
density 0, because Python's `density or self.default_density` treats the
float `0.0` as falsy. -/
theorem claim_C8_counterexample :
    (apply_rigid_body 1000 (mk_stage "/R" [("/R", "Xform"), ("/R/a", "Xform")])
        "/R/a" false none (some 0) none).map Stage.densityAttrs
      = Except.ok [("/R/a", 1000)] ∧
    ¬ (apply_rigid_body 1000 (mk_stage "/R" [("/R", "Xform"), ("/R/a", "Xform")])
        "/R/a" false none (some 0) none).map Stage.densityAttrs
      = Except.ok [("/R/a", 0)] := by
  decide

/-- C8 (corrected): for every annotated part, if `mass` is set it is
recorded verbatim and no density attribute is written; if `mass` is
absent, a density attribute is written and no mass attribute: the
recorded density is the part's density, with the 1000 kg/m³ default
substituted when the density is absent *or equal to 0* (Python falsiness
of `0.0`). -/
theorem claim_C8 :
    ∀ (st : Stage) (p : String) (kin : Bool) (m d : Option ℚ)
      (c : Option (ℚ × ℚ × ℚ)) (st' : Stage),
    apply_rigid_body 1000 st p kin m d c = Except.ok st' →
    (∀ mv, m = some mv →
        st'.massAttrs = st.massAttrs ++ [(p, mv)] ∧
        st'.densityAttrs = st.densityAttrs) ∧
    (m = none →
        st'.densityAttrs = st.densityAttrs ++ [(p, density_fallback_spec d)] ∧
        st'.massAttrs = st.massAttrs) := by
  intro st p kin m d c st' h
  have hfb : py_or_default d 1000 = density_fallback_spec d := by
    cases d <;> rfl
  rw [apply_rigid_body_ok h]
  constructor
  · intro mv hm
    subst hm
    exact ⟨rfl, by simp⟩
  · intro hm
    subst hm
    exact ⟨by simp [hfb], by simp⟩

/-- Closed instance of `claim_C8`: annotating a part with no mass and
density 500 on an existing prim records density 500 and no mass. -/
theorem claim_C8_witness :
    apply_rigid_body 1000 (mk_stage "/R" [("/R", "Xform"), ("/R/a", "Xform")])
        "/R/a" false none (some 500) none
      = Except.ok { mk_stage "/R" [("/R", "Xform"), ("/R/a", "Xform")] with
          rigidBodies := [("/R/a", false)], densityAttrs := [("/R/a", 500)] } ∧
    ([("/R/a", (500 : ℚ))] : List (String × ℚ))
      = [] ++ [("/R/a", density_fallback_spec (some 500))] := by
  constructor
  · decide
  · exact (claim_C8 (mk_stage "/R" [("/R", "Xform"), ("/R/a", "Xform")]) "/R/a" false
        none (some 500) none
        { mk_stage "/R" [("/R", "Xform"), ("/R/a", "Xform")] with
          rigidBodies := [("/R/a", false)], densityAttrs := [("/R/a", 500)] }
        (by decide)).2 rfl |>.1

/-- Effect of `apply_collision` on success, in closed form: the
CollisionAPI is recorded on the given path, and on a mesh prim the
approximation attribute follows the three-way funnel. -/
theorem apply_collision_ok {st : Stage} {p ct : String} {st' : Stage}
    (h : apply_collision st p ct = Except.ok st') :
    st' = { st with
      collisionAPIs := st.collisionAPIs ++ [p],
      meshCollisionApprox := st.meshCollisionApprox ++
        (if is_mesh_prim st p then [(p, collision_funnel_spec ct)] else []) } := by
  simp only [apply_collision] at h
  by_cases hv : is_valid_prim st p = true
  · rw [if_pos hv] at h
    have hmeq : is_mesh_prim { st with collisionAPIs := st.collisionAPIs ++ [p] } p
        = is_mesh_prim st p := rfl
    rw [hmeq] at h
    by_cases hm : is_mesh_prim st p = true
    · rw [if_pos hm] at h
      simp only [Except.ok.injEq] at h
      subst h
      simp [hm, collision_funnel_spec]
    · simp only [Bool.not_eq_true] at hm
      rw [hm] at h ⊢
      simp only [Bool.false_eq_true, if_false, Except.ok.injEq] at h
      subst h
      simp
  · simp only [Bool.not_eq_true] at hv
    simp [hv] at h

/-- `process_joint` never touches the per-part physics annotations nor
the articulation root: it only defines joint prims, appends joint
records, or logs a warning. -/
theorem process_joint_frame (pp : List (String × String)) (st : Stage) (j : Joint) :
    (process_joint pp st j).defaultPrimPath = st.defaultPrimPath ∧
    (process_joint pp st j).artRoots = st.artRoots ∧
    (process_joint pp st j).rigidBodies = st.rigidBodies ∧
    (process_joint pp st j).massAttrs = st.massAttrs ∧
    (process_joint pp st j).densityAttrs = st.densityAttrs ∧
    (process_joint pp st j).comAttrs = st.comAttrs ∧
    (process_joint pp st j).collisionAPIs = st.collisionAPIs ∧
    (process_joint pp st j).meshCollisionApprox = st.meshCollisionApprox := by
  unfold process_joint
  cases List.lookup j.parent pp <;> cases List.lookup j.child pp <;>
    (simp [create_revolute_joint, create_prismatic_joint, create_fixed_joint,
      joints_container, define_prim]
     all_goals (split_ifs <;> simp))

/-- The joint loop preserves the per-part annotations and the
articulation root. -/
theorem annotate_joints_frame (pp : List (String × String)) :
    ∀ (js : List Joint) (st : Stage),
    (annotate_joints pp st js).defaultPrimPath = st.defaultPrimPath ∧
    (annotate_joints pp st js).artRoots = st.artRoots ∧
    (annotate_joints pp st js).rigidBodies = st.rigidBodies ∧
    (annotate_joints pp st js).massAttrs = st.massAttrs ∧
    (annotate_joints pp st js).densityAttrs = st.densityAttrs ∧
    (annotate_joints pp st js).comAttrs = st.comAttrs ∧
    (annotate_joints pp st js).collisionAPIs = st.collisionAPIs ∧
    (annotate_joints pp st js).meshCollisionApprox = st.meshCollisionApprox := by
  intro js
  induction js with
  | nil => intro st; simp [annotate_joints]
  | cons j rest ih =>
    intro st
    have hj := process_joint_frame pp st j
    have hr := ih (process_joint pp st j)
    simp only [annotate_joints]
    exact ⟨hr.1.trans hj.1, hr.2.1.trans hj.2.1, hr.2.2.1.trans hj.2.2.1,
      hr.2.2.2.1.trans hj.2.2.2.1, hr.2.2.2.2.1.trans hj.2.2.2.2.1,
      hr.2.2.2.2.2.1.trans hj.2.2.2.2.2.1, hr.2.2.2.2.2.2.1.trans hj.2.2.2.2.2.2.1,
      hr.2.2.2.2.2.2.2.trans hj.2.2.2.2.2.2.2⟩

/-- Test fixture: a `Part` with the given id and semantic type and the
pydantic defaults for every remaining field. -/
def mk_part (id ty : String) : Part :=
  { id := id, name := id, type := ty, role := "other", mobility := "fixed",
    mass := none, density := some 1000, center_of_mass := none,
    collision_type := "convexHull" }

/-- Test fixture: a `Joint` with the given name, endpoints and type and
the pydantic defaults for every remaining field. -/
def mk_joint (name parent child ty : String) : Joint :=
  { name := name, parent := parent, child := child, type := ty, axis := (0, 0, 1),
    anchor := (0, 0, 0), lower_limit := some (-180), upper_limit := some 180,
    drive_stiffness := some 1000, drive_damping := some 100,
    drive_max_force := some 1000, drive_type := "position" }

/-- A joint with an unresolved endpoint is dropped with only a warning
recorded (helper shared by several developments below). -/
theorem process_joint_dropped (pp : List (String × String)) (st : Stage) (j : Joint)
    (h : List.lookup j.parent pp = none ∨ List.lookup j.child pp = none) :
    process_joint pp st j =
      { st with warnings := st.warnings ++
          ["Joint " ++ j.name ++ ": parent or child not found"] } := by
  unfold process_joint
  rcases h with h | h
  · rw [h]
  · rw [h]
    cases List.lookup j.parent pp <;> rfl

/-- With an empty part-path map every joint is dropped: the joint loop
only accumulates warnings. -/
theorem annotate_joints_nil_pp :
    ∀ (js : List Joint) (st : Stage),
    annotate_joints [] st js =
      { st with warnings := st.warnings ++
          js.map (fun j => "Joint " ++ j.name ++ ": parent or child not found") } := by
  intro js
  induction js with
  | nil => intro st; simp [annotate_joints]
  | cons j rest ih =>
    intro st
    have hd : process_joint [] st j =
        { st with warnings := st.warnings ++
            ["Joint " ++ j.name ++ ": parent or child not found"] } :=
      process_joint_dropped [] st j (Or.inl rfl)
    simp only [annotate_joints, hd, ih, List.map_cons, List.append_assoc,
      List.singleton_append]

/-- Success frame of `process_part`: the per-part step never touches the
articulation root, the joint records, the prims, or the default prim
path. -/
theorem process_part_frame {dd : ℚ} {pp : List (String × String)} {st : Stage}
    {part : Part} {st' : Stage} (h : process_part dd pp st part = Except.ok st') :
    st'.defaultPrimPath = st.defaultPrimPath ∧ st'.prims = st.prims ∧
    st'.artRoots = st.artRoots ∧ st'.joints = st.joints := by
  simp only [process_part] at h
  split at h
  · simp only [Except.ok.injEq] at h
    subst h
    exact ⟨rfl, rfl, rfl, rfl⟩
  · split at h
    · cases h
    · rename_i st2 hrb
      have hf := apply_rigid_body_frame hrb
      split at h
      · have hc := apply_collision_ok h
        subst hc
        exact ⟨hf.1, hf.2.1, hf.2.2.1, hf.2.2.2.2.2.1⟩
      · simp only [Except.ok.injEq] at h
        subst h
        exact ⟨hf.1, hf.2.1, hf.2.2.1, hf.2.2.2.2.2.1⟩

/-- Success frame of the part loop. -/
theorem annotate_parts_frame {dd : ℚ} {pp : List (String × String)} :
    ∀ {parts : List Part} {st st' : Stage},
    annotate_parts dd pp st parts = Except.ok st' →
    st'.defaultPrimPath = st.defaultPrimPath ∧ st'.prims = st.prims ∧
    st'.artRoots = st.artRoots ∧ st'.joints = st.joints := by
  intro parts
  induction parts with
  | nil =>
    intro st st' h
    simp only [annotate_parts, Except.ok.injEq] at h
    subst h
    exact ⟨rfl, rfl, rfl, rfl⟩
  | cons part rest ih =>
    intro st st' h
    simp only [annotate_parts] at h
    rcases hp : process_part dd pp st part with e | st2
    · rw [hp] at h; cases h
    · rw [hp] at h
      have h1 := process_part_frame hp
      have h2 := ih h
      exact ⟨h2.1.trans h1.1, h2.2.1.trans h1.2.1, h2.2.2.1.trans h1.2.2.1,
        h2.2.2.2.trans h1.2.2.2⟩

/-! ### C1 — empty part list -/

/-- C1, the claim as stated, is false: with an empty part list but a
non-empty part-path map, `inject_physics` still applies the
articulation-root marking to the first path-map entry (the fallback
branch does not depend on the part list being non-empty). -/
theorem claim_C1_counterexample :
    (inject_physics 1000 (mk_stage "/R" [("/R", "Xform"), ("/R/a", "Xform")])
        ⟨"r", [], []⟩ [("a", "/R/a")]).map Stage.artRoots
      = Except.ok ["/R/a"] ∧
    (["/R/a"] : List String) ≠ [] := by
  decide

/-- C1 (corrected): with an empty part list *and* an empty part-path
map, `inject_physics` adds nothing at all — no articulation-root
marking, no rigid-body, mass or collision annotations, and no joint
nodes — and raises no error: each joint merely logs a drop warning.
(With a non-empty part-path map, the first map entry is still marked as
articulation root even though the part list is empty.) -/
theorem claim_C1 :
    ∀ (dd : ℚ) (st : Stage) (art : ArticulationData),
    art.parts = [] →
    inject_physics dd st art [] =
      Except.ok { st with warnings := (st.warnings ++
        art.joints.map (fun j => "Joint " ++ j.name ++ ": parent or child not found")) } := by
  intro dd st art hparts
  rcases art with ⟨mn, parts, joints⟩
  simp only at hparts
  subst hparts
  calc inject_physics dd st ⟨mn, [], joints⟩ []
      = Except.ok (annotate_joints [] st joints) := rfl
    _ = Except.ok { st with warnings := (st.warnings ++
          joints.map (fun j => "Joint " ++ j.name ++ ": parent or child not found")) } := by
        rw [annotate_joints_nil_pp]

/-- Closed instance of `claim_C1`: an articulation with no parts and one
joint yields a stage identical up to the drop warning. -/
theorem claim_C1_witness :
    inject_physics 1000 (mk_stage "/R" [("/R", "Xform")])
        ⟨"r", [], [mk_joint "j" "a" "b" "revolute"]⟩ []
      = Except.ok { mk_stage "/R" [("/R", "Xform")] with warnings :=
          ((mk_stage "/R" [("/R", "Xform")]).warnings ++
            [mk_joint "j" "a" "b" "revolute"].map
              (fun j => "Joint " ++ j.name ++ ": parent or child not found")) } :=
  claim_C1 1000 (mk_stage "/R" [("/R", "Xform")])
    ⟨"r", [], [mk_joint "j" "a" "b" "revolute"]⟩ rfl

/-! ### C2 — root selection -/

/-- The articulation-root target actually selected by `inject_physics`:
the first part of kind `base` when its id resolves in the part-path map;
otherwise (no base part, or base part unresolved) the first entry of the
part-path map in insertion order, if any. -/
def root_target (parts : List Part) (pp : List (String × String)) : Option String :=
  match find_base_part parts with
  | some bp =>
    match List.lookup bp.id pp with
    | some p => some p
    | none => pp.head?.map Prod.snd
  | none => pp.head?.map Prod.snd

/-- C2, the claim as stated, is false: with parts `[A(link), B(link)]`
(no base part) and a part-path map whose first entry is B's, the
articulation-root marking goes to B's node — the first entry of the
part-path map — not to the first part A as the claim requires. -/
theorem claim_C2_counterexample :
    (inject_physics 1000
        (mk_stage "/R" [("/R", "Xform"), ("/R/a", "Xform"), ("/R/b", "Xform")])
        ⟨"r", [mk_part "a" "link", mk_part "b" "link"], []⟩
        [("b", "/R/b"), ("a", "/R/a")]).map Stage.artRoots
      = Except.ok ["/R/b"] ∧
    ¬ (inject_physics 1000
        (mk_stage "/R" [("/R", "Xform"), ("/R/a", "Xform"), ("/R/b", "Xform")])
        ⟨"r", [mk_part "a" "link", mk_part "b" "link"], []⟩
        [("b", "/R/b"), ("a", "/R/a")]).map Stage.artRoots
      = Except.ok ["/R/a"] := by
  decide

/-- Effect of `apply_articulation_root` on success, in closed form. -/
theorem apply_articulation_root_ok {st : Stage} {p : String} {st1 : Stage}
    (h : apply_articulation_root st p = Except.ok st1) :
    st1 = { st with artRoots := st.artRoots ++ [p] } := by
  unfold apply_articulation_root at h
  split at h
  · simp only [Except.ok.injEq] at h
    exact h.symm
  · cases h

/-- The root-marking phase appends exactly `root_target` to the
articulation-root markings and changes nothing else. -/
theorem root_step_ok {st : Stage} {parts : List Part} {pp : List (String × String)}
    {st1 : Stage} (h : root_step st parts pp = Except.ok st1) :
    st1 = { st with artRoots := st.artRoots ++ (root_target parts pp).toList } := by
  unfold root_step at h
  unfold root_target
  split at h
  · split at h
    · rw [apply_articulation_root_ok h]
      simp
    · split at h
      · simp only [Except.ok.injEq] at h
        subst h
        simp
      · rw [apply_articulation_root_ok h]
        simp
  · split at h
    · simp only [Except.ok.injEq] at h
      subst h
      simp
    · rw [apply_articulation_root_ok h]
      simp

/-- C2 (corrected): the articulation root is the first part of kind
`base` (in input order) provided its id resolves in the part-path map;
otherwise — no base part, or base part unresolved — the root marking is
applied to the first entry of the part-path map in insertion order, if
the map is non-empty: on success `inject_physics` appends exactly
`root_target` to the stage's articulation-root markings. -/
theorem claim_C2 :
    ∀ (dd : ℚ) (st : Stage) (art : ArticulationData) (pp : List (String × String))
      (st' : Stage),
    inject_physics dd st art pp = Except.ok st' →
    st'.artRoots = st.artRoots ++ (root_target art.parts pp).toList := by
  intro dd st art pp st' h
  simp only [inject_physics] at h
  split at h
  · cases h
  · rename_i st1 hroot
    split at h
    · cases h
    · rename_i st2 hann
      simp only [Except.ok.injEq] at h
      subst h
      have hj := annotate_joints_frame pp art.joints st2
      have hp := annotate_parts_frame hann
      rw [hj.2.1, hp.2.2.1, root_step_ok hroot]

/-- Fixtures for the closed instance of the root-selection theorem:
the spec's example `[A(link), B(base), C(link)]` with every part
resolved. -/
def c2w_stage : Stage :=
  mk_stage "/R" [("/R", "Xform"), ("/R/a", "Xform"), ("/R/b", "Xform"), ("/R/c", "Xform")]

def c2w_art : ArticulationData :=
  ⟨"r", [mk_part "a" "link", mk_part "b" "base", mk_part "c" "link"], []⟩

def c2w_pp : List (String × String) := [("a", "/R/a"), ("b", "/R/b"), ("c", "/R/c")]

def c2w_res : Stage :=
  { c2w_stage with
    artRoots := ["/R/b"]
    rigidBodies := [("/R/a", false), ("/R/b", true), ("/R/c", false)]
    densityAttrs := [("/R/a", 1000), ("/R/b", 1000), ("/R/c", 1000)] }

/-- Closed instance of `claim_C2`: on the spec's example the resolved
root is B (the base part), regardless of its position in the list. -/
theorem claim_C2_witness :
    inject_physics 1000 c2w_stage c2w_art c2w_pp = Except.ok c2w_res ∧
    c2w_res.artRoots = c2w_stage.artRoots ++ (root_target c2w_art.parts c2w_pp).toList ∧
    root_target c2w_art.parts c2w_pp = some "/R/b" := by
  have h : inject_physics 1000 c2w_stage c2w_art c2w_pp = Except.ok c2w_res := by decide
  exact ⟨h, claim_C2 1000 c2w_stage c2w_art c2w_pp c2w_res h, by decide⟩

/-! ### C6 — dangling joints are dropped, not fatal -/

/-- C6, the claim as stated, is false in its last conjunct: the dangling
joint on parts `{A}` with child `"ghost"` is indeed dropped without error
and part A is still annotated normally, but the drop is recorded only as
the log message `"Joint j: parent or child not found"`, which does not
mention a `dangling-reference` reason. -/
theorem claim_C6_counterexample :
    (inject_physics 1000 (mk_stage "/R" [("/R", "Xform"), ("/R/a", "Xform"), ("/R/a/mesh", "Mesh")])
        ⟨"r", [mk_part "a" "link"], [mk_joint "j" "a" "ghost" "revolute"]⟩
        [("a", "/R/a")]).map (fun s => (s.joints, s.rigidBodies, s.warnings))
      = Except.ok ([], [("/R/a", false)], ["Joint j: parent or child not found"]) ∧
    contains_sub "Joint j: parent or child not found".data "dangling-reference".data = false := by
  decide

/-- C6 (corrected): a joint whose `parentPartId` or `childPartId` does
not resolve in the part-path map is dropped — no joint node is created
for it, the stage is otherwise untouched, and processing continues (the
step returns normally) — and the drop is recorded as the warning
`"Joint <name>: parent or child not found"`, not with a
`dangling-reference` reason; parts are annotated in a separate earlier
phase and are unaffected. -/
theorem claim_C6 :
    ∀ (pp : List (String × String)) (st : Stage) (j : Joint),
    (List.lookup j.parent pp = none ∨ List.lookup j.child pp = none) →
    process_joint pp st j =
      { st with warnings := st.warnings ++
          ["Joint " ++ j.name ++ ": parent or child not found"] } := by
  intro pp st j h
  unfold process_joint
  rcases h with h | h
  · rw [h]
  · rw [h]
    cases List.lookup j.parent pp <;> rfl

/-- Closed instance of `claim_C6`: the ghost joint of the spec's example
is dropped with only the warning recorded. -/
theorem claim_C6_witness :
    process_joint [("a", "/R/a")] (mk_stage "/R" [("/R", "Xform")])
        (mk_joint "j" "a" "ghost" "revolute")
      = { mk_stage "/R" [("/R", "Xform")] with warnings :=
          (mk_stage "/R" [("/R", "Xform")]).warnings ++
            ["Joint " ++ (mk_joint "j" "a" "ghost" "revolute").name ++
              ": parent or child not found"] } :=
  claim_C6 [("a", "/R/a")] (mk_stage "/R" [("/R", "Xform")])
    (mk_joint "j" "a" "ghost" "revolute") (Or.inr (by decide))

/-! ### C3 — unrecognized joint types -/

/-- C3, the claim as stated, is false: handing the annotator an
articulation whose only joint has the unrecognized type `"ball"` (with
both endpoints resolved) does not fail the export — `inject_physics`
succeeds, and the joint is silently skipped (no joint node). -/
theorem claim_C3_counterexample :
    (inject_physics 1000 (mk_stage "/R" [("/R", "Xform"), ("/R/a", "Xform")])
        ⟨"r", [mk_part "a" "link"], [mk_joint "b" "a" "a" "ball"]⟩
        [("a", "/R/a")]).map (fun s => s.joints)
      = Except.ok [] := by
  decide

/-- C3 (corrected): an unrecognized joint type cannot occur in a
schema-valid `Joint` (the pydantic `Literal` admits only `fixed`,
`revolute`, `prismatic`, so a request containing one is rejected before
annotation); the annotator itself, handed such a joint with both
endpoints resolved, does not abort the export — it silently skips the
joint, leaving the stage unchanged. -/
theorem claim_C3 :
    (∀ j : Joint, j.Wf → j.type ∈ recognized_joint_types) ∧
    (∀ (pp : List (String × String)) (st : Stage) (j : Joint),
      j.type ∉ recognized_joint_types →
      (List.lookup j.parent pp).isSome →
      (List.lookup j.child pp).isSome →
      process_joint pp st j = st) := by
  constructor
  · intro j hj
    exact hj.1
  · intro pp st j hty hp hc
    unfold process_joint
    rcases hp' : List.lookup j.parent pp with _ | pth
    · rw [hp'] at hp; simp at hp
    rcases hc' : List.lookup j.child pp with _ | cth
    · rw [hc'] at hc; simp at hc
    simp only [recognized_joint_types, List.mem_cons, List.mem_singleton,
      List.not_mem_nil, or_false, not_or] at hty
    obtain ⟨h1, h2, h3⟩ := hty
    simp [h1, h2, h3]

/-- Closed instance of `claim_C3`: a well-formed fixed joint has a
recognized type, and a `"ball"` joint with resolved endpoints is skipped
with the stage unchanged. -/
theorem claim_C3_witness :
    (mk_joint "b" "a" "a" "fixed").type ∈ recognized_joint_types ∧
    process_joint [("a", "/R/a")] (mk_stage "/R" [("/R", "Xform")])
        (mk_joint "b" "a" "a" "ball")
      = mk_stage "/R" [("/R", "Xform")] :=
  ⟨claim_C3.1 (mk_joint "b" "a" "a" "fixed") ⟨by decide, by decide⟩,
   claim_C3.2 [("a", "/R/a")] (mk_stage "/R" [("/R", "Xform")])
     (mk_joint "b" "a" "a" "ball") (by decide) (by decide) (by decide)⟩

/-! ### C9 — collision funnel on the geometry sub-node -/

/-- Whether the per-part step applied a collision, with provenance: on
success either the collision list is untouched or exactly the part's
`<path>/mesh` geometry sub-node was appended. -/
theorem process_part_collision {dd : ℚ} {pp : List (String × String)} {st : Stage}
    {part : Part} {st' : Stage} (h : process_part dd pp st part = Except.ok st') :
    st'.collisionAPIs = st.collisionAPIs ∨
    ∃ bp, List.lookup part.id pp = some bp ∧
      st'.collisionAPIs = st.collisionAPIs ++ [bp ++ "/mesh"] := by
  simp only [process_part] at h
  split at h
  · simp only [Except.ok.injEq] at h
    subst h
    exact Or.inl rfl
  · rename_i bp hl
    split at h
    · cases h
    · rename_i st2 hrb
      have hf := apply_rigid_body_frame hrb
      split at h
      · have hc := apply_collision_ok h
        subst hc
        exact Or.inr ⟨bp, hl, by rw [hf.2.2.2.1]⟩
      · simp only [Except.ok.injEq] at h
        subst h
        exact Or.inl hf.2.2.2.1

/-- Provenance of collision annotations through the part loop. -/
theorem annotate_parts_collision {dd : ℚ} {pp : List (String × String)} :
    ∀ {parts : List Part} {st st' : Stage},
    annotate_parts dd pp st parts = Except.ok st' →
    ∀ q ∈ st'.collisionAPIs, q ∈ st.collisionAPIs ∨
      ∃ part ∈ parts, ∃ bp, List.lookup part.id pp = some bp ∧ q = bp ++ "/mesh" := by
  intro parts
  induction parts with
  | nil =>
    intro st st' h q hq
    simp only [annotate_parts, Except.ok.injEq] at h
    subst h
    exact Or.inl hq
  | cons part rest ih =>
    intro st st' h q hq
    simp only [annotate_parts] at h
    rcases hp : process_part dd pp st part with e | st2
    · rw [hp] at h; cases h
    · rw [hp] at h
      rcases ih h q hq with hin | ⟨part', hmem, bp, hl, hq'⟩
      · rcases process_part_collision hp with hsame | ⟨bp, hl, happ⟩
        · rw [hsame] at hin
          exact Or.inl hin
        · rw [happ] at hin
          rcases List.mem_append.mp hin with hin | hin
          · exact Or.inl hin
          · exact Or.inr ⟨part, List.mem_cons_self part rest, bp, hl,
              List.mem_singleton.mp hin⟩
      · exact Or.inr ⟨part', List.mem_cons_of_mem part hmem, bp, hl, hq'⟩

/-- C9 (confirmed): collision is applied on the part's geometry
sub-node, never on the transform node — every collision path emitted by
`inject_physics` is a resolved part path extended with `"/mesh"` — and
`apply_collision` maps the collision shape through the three-way funnel
(`convexHull` and `convexDecomposition` to themselves, anything else,
including `mesh` and `none`, to the exact-triangle `"none"` tag) on the
mesh prim. -/
theorem claim_C9 :
    (∀ (st : Stage) (p ct : String) (st' : Stage),
      apply_collision st p ct = Except.ok st' →
      st' = { st with
        collisionAPIs := st.collisionAPIs ++ [p],
        meshCollisionApprox := st.meshCollisionApprox ++
          (if is_mesh_prim st p then [(p, collision_funnel_spec ct)] else []) }) ∧
    (∀ (dd : ℚ) (st : Stage) (art : ArticulationData) (pp : List (String × String))
      (st' : Stage),
      inject_physics dd st art pp = Except.ok st' →
      ∀ q ∈ st'.collisionAPIs, q ∈ st.collisionAPIs ∨
        ∃ part ∈ art.parts, ∃ bp, List.lookup part.id pp = some bp ∧
          q = bp ++ "/mesh") := by
  constructor
  · intro st p ct st' h
    exact apply_collision_ok h
  · intro dd st art pp st' h q hq
    simp only [inject_physics] at h
    split at h
    · cases h
    · rename_i st1 hroot
      split at h
      · cases h
      · rename_i st2 hann
        simp only [Except.ok.injEq] at h
        subst h
        rw [(annotate_joints_frame pp art.joints st2).2.2.2.2.2.2.1] at hq
        have h1 := annotate_parts_collision hann q hq
        rw [root_step_ok hroot] at h1
        exact h1

/-- Closed instance of `claim_C9`: a `mesh` collision shape lands on the
`"none"` (exact triangle) approximation of the mesh prim, and the one
collision path of a concrete run is a resolved part path plus
`"/mesh"`. -/
theorem claim_C9_witness :
    apply_collision (mk_stage "/R" [("/R/a/mesh", "Mesh")]) "/R/a/mesh" "mesh"
      = Except.ok { mk_stage "/R" [("/R/a/mesh", "Mesh")] with
          collisionAPIs := ["/R/a/mesh"]
          meshCollisionApprox := [("/R/a/mesh", "none")] } ∧
    (∃ part ∈ ([mk_part "a" "link"] : List Part), ∃ bp,
      List.lookup part.id [("a", "/R/a")] = some bp ∧ "/R/a/mesh" = bp ++ "/mesh") := by
  constructor
  · have h : apply_collision (mk_stage "/R" [("/R/a/mesh", "Mesh")]) "/R/a/mesh" "mesh"
        = Except.ok { mk_stage "/R" [("/R/a/mesh", "Mesh")] with
            collisionAPIs := ["/R/a/mesh"]
            meshCollisionApprox := [("/R/a/mesh", "none")] } := by decide
    have h2 := claim_C9.1 _ _ _ _ h
    exact h
  · have hrun : inject_physics 1000
        (mk_stage "/R" [("/R", "Xform"), ("/R/a", "Xform"), ("/R/a/mesh", "Mesh")])
        ⟨"r", [mk_part "a" "link"], []⟩ [("a", "/R/a")]
        = Except.ok { mk_stage "/R" [("/R", "Xform"), ("/R/a", "Xform"), ("/R/a/mesh", "Mesh")] with
            artRoots := ["/R/a"]
            rigidBodies := [("/R/a", false)]
            densityAttrs := [("/R/a", 1000)]
            collisionAPIs := ["/R/a/mesh"]
            meshCollisionApprox := [("/R/a/mesh", "convexHull")] } := by decide
    have h3 := claim_C9.2 1000 _ _ _ _ hrun "/R/a/mesh" (by decide)
    rcases h3 with hin | hgood
    · exact absurd hin (by decide)
    · exact hgood

/-! ### C10 — the two node-name sanitizers agree -/

/-- `py_replace_uu` never lengthens a string. -/
theorem py_replace_uu_length_le : ∀ s : List Char, (py_replace_uu s).length ≤ s.length := by
  intro s
  induction s using py_replace_uu.induct with
  | case1 rest ih => simpa [py_replace_uu] using Nat.le_succ_of_le ih
  | case2 c rest hne ih =>
    rw [py_replace_uu.eq_def]
    split
    · rename_i rest2 heq
      injection heq with h1 h2
      exact (hne rest2 h1 h2).elim
    · rename_i c2 rest2 heq
      injection heq with h1 h2
      subst h1
      subst h2
      simpa using ih
    · rename_i heq
      cases heq
  | case3 => simp [py_replace_uu]

/-- One replacement pass strictly shrinks a string containing `"__"`. -/
theorem py_replace_uu_length_lt :
    ∀ s : List Char, has_uu s = true → (py_replace_uu s).length < s.length := by
  intro s
  induction s using py_replace_uu.induct with
  | case1 rest ih =>
    intro _
    simp only [py_replace_uu, List.length_cons]
    have := py_replace_uu_length_le rest
    omega
  | case2 c rest hne ih =>
    intro hu
    have hu' : has_uu rest = true := by
      rw [has_uu.eq_def] at hu
      split at hu
      · rename_i rest2 heq
        injection heq with h1 h2
        exact (hne rest2 h1 h2).elim
      · rename_i c2 rest2 heq
        injection heq with h1 h2
        subst h2
        exact hu
      · rename_i heq
        cases heq
    rw [py_replace_uu.eq_def]
    split
    · rename_i rest2 heq
      injection heq with h1 h2
      exact (hne rest2 h1 h2).elim
    · rename_i c2 rest2 heq
      injection heq with h1 h2
      subst h1
      subst h2
      simpa using ih hu'
    · rename_i heq
      cases heq
  | case3 =>
    intro hu
    simp [has_uu] at hu

/-- The fueled collapse loop reaches a fixed point: with fuel at least
the string length, the result contains no `"__"` (so the model is a
faithful rendering of the unbounded Python `while` loop). -/
theorem collapse_uu_fuel_enough :
    ∀ (fuel : Nat) (s : List Char), s.length ≤ fuel →
    has_uu (collapse_uu_fuel fuel s) = false := by
  intro fuel
  induction fuel with
  | zero =>
    intro s hs
    have : s = [] := List.eq_nil_of_length_eq_zero (Nat.le_zero.mp hs)
    subst this
    rfl
  | succ n ih =>
    intro s hs
    rw [collapse_uu_fuel]
    by_cases hu : has_uu s = true
    · rw [if_pos hu]
      exact ih _ (by have := py_replace_uu_length_lt s hu; omega)
    · rw [if_neg hu]
      simpa using hu

/-- `collapse_uu` leaves no double underscore. -/
theorem collapse_uu_no_uu (s : List Char) : has_uu (collapse_uu s) = false :=
  collapse_uu_fuel_enough s.length s (Nat.le_refl _)

/-- C10 (confirmed): `USDBuilder._sanitize_prim_name` and
`PhysicsInjector._sanitize_name` are extensionally equal — part prim
names and joint prim names are sanitized by one and the same rule — and
that rule behaves as described: invalid characters become underscores, a
leading digit gets an underscore prefix, the empty string becomes
`_unnamed`, and double underscores are collapsed iteratively. -/
theorem claim_C10 :
    (∀ s : String, sanitize_prim_name s = sanitize_name s) ∧
    sanitize_name "a b!c" = "a_b_c" ∧
    sanitize_name "9ab" = "_9ab" ∧
    sanitize_name "" = "_unnamed" ∧
    sanitize_name "a___b" = "a_b" := by
  refine ⟨fun s => rfl, by decide, by decide, by decide, by decide⟩

/-! ### C4 — the part-id sanitizer -/

/-- The character class `[a-z0-9_]` of the spec's regex. -/
def is_id_char (c : Char) : Prop :=
  (97 ≤ c.toNat ∧ c.toNat ≤ 122) ∨ (48 ≤ c.toNat ∧ c.toNat ≤ 57) ∨ c = '_'

instance (c : Char) : Decidable (is_id_char c) := by
  unfold is_id_char
  infer_instance

theorem isUpper_iff (c : Char) : c.isUpper = true ↔ 65 ≤ c.toNat ∧ c.toNat ≤ 90 := by
  simp only [Char.isUpper, Bool.and_eq_true, decide_eq_true_eq]
  exact Iff.rfl

theorem isLower_iff (c : Char) : c.isLower = true ↔ 97 ≤ c.toNat ∧ c.toNat ≤ 122 := by
  simp only [Char.isLower, Bool.and_eq_true, decide_eq_true_eq]
  exact Iff.rfl

theorem isDigit_iff (c : Char) : c.isDigit = true ↔ 48 ≤ c.toNat ∧ c.toNat ≤ 57 := by
  simp only [Char.isDigit, Bool.and_eq_true, decide_eq_true_eq]
  exact Iff.rfl

theorem py_to_lower_toNat (c : Char) :
    (py_to_lower c).toNat =
      if (65 ≤ c.toNat ∧ c.toNat ≤ 90) ∨ (192 ≤ c.toNat ∧ c.toNat ≤ 214) ∨
          (216 ≤ c.toNat ∧ c.toNat ≤ 222)
      then c.toNat + 32 else c.toNat := by
  unfold py_to_lower
  split
  · rename_i h
    have hv : Nat.isValidChar (c.toNat + 32) := Or.inl (by omega)
    rw [Char.ofNat, dif_pos hv, if_pos (Or.inl h)]
    rfl
  · split
    · rename_i h1 h2
      have hv : Nat.isValidChar (c.toNat + 32) := Or.inl (by omega)
      rw [Char.ofNat, dif_pos hv, if_pos (Or.inr h2)]
      rfl
    · rename_i h1 h2
      rw [if_neg (by omega)]

/-- On the ASCII range the Latin-1 extension of `py_is_alnum` is
inert. -/
theorem py_is_alnum_ascii (d : Char) (hd : d.toNat ≤ 127) :
    py_is_alnum d = d.isAlphanum := by
  unfold py_is_alnum
  rw [decide_eq_false (by omega), Bool.or_false]

/-- Every character produced by the lower-then-filter step of the
sanitizer from an ASCII character lies in `[a-z0-9_]`. -/
theorem mapped_char_id_ascii (c : Char) (hc : c.toNat ≤ 127) :
    is_id_char (if py_is_alnum (py_to_lower c) then py_to_lower c else '_') := by
  have hdn := py_to_lower_toNat c
  have hd127 : (py_to_lower c).toNat ≤ 127 := by
    rw [hdn]
    split
    · rename_i h
      omega
    · exact hc
  rw [py_is_alnum_ascii _ hd127]
  by_cases h : (py_to_lower c).isAlphanum = true
  · rw [if_pos h]
    simp only [Char.isAlphanum, Char.isAlpha, Bool.or_eq_true] at h
    rcases h with (hu | hl) | hd
    · exfalso
      have h1 := (isUpper_iff _).mp hu
      rw [hdn] at h1
      split at h1 <;> omega
    · exact Or.inl ((isLower_iff _).mp hl)
    · exact Or.inr (Or.inl ((isDigit_iff _).mp hd))
  · rw [if_neg h]
    exact Or.inr (Or.inr rfl)

/-- Characters of the pieces of `split_underscore` come from the input. -/
theorem split_underscore_chars :
    ∀ (s : List Char) (p : List Char), p ∈ split_underscore s → ∀ c ∈ p, c ∈ s := by
  intro s
  induction s with
  | nil =>
    intro p hp c hc
    simp only [split_underscore, List.mem_singleton] at hp
    subst hp
    cases hc
  | cons a rest ih =>
    intro p hp c hc
    rw [split_underscore.eq_def] at hp
    split at hp
    · rename_i heq
      cases heq
    · rename_i rest2 heq
      injection heq with h1 h2
      subst h1
      subst h2
      rcases List.mem_cons.mp hp with hp | hp
      · subst hp
        cases hc
      · exact List.mem_cons_of_mem _ (ih p hp c hc)
    · rename_i c2 rest2 hne heq
      injection heq with h1 h2
      subst h1
      subst h2
      split at hp
      · rename_i hnil
        simp only [List.mem_singleton] at hp
        subst hp
        simp only [List.mem_singleton] at hc
        exact hc ▸ List.mem_cons_self _ _
      · rename_i q qs hcons
        rcases List.mem_cons.mp hp with hp | hp
        · subst hp
          rcases List.mem_cons.mp hc with hc | hc
          · exact hc ▸ List.mem_cons_self _ _
          · exact List.mem_cons_of_mem _ (ih q (hcons ▸ List.mem_cons_self _ _) c hc)
        · exact List.mem_cons_of_mem _ (ih p (hcons ▸ List.mem_cons_of_mem _ hp) c hc)

/-- Characters of `join_underscore` come from the pieces or are the
underscore. -/
theorem join_underscore_chars :
    ∀ (ps : List (List Char)) (c : Char), c ∈ join_underscore ps →
    (∃ p ∈ ps, c ∈ p) ∨ c = '_' := by
  intro ps
  induction ps with
  | nil =>
    intro c hc
    cases hc
  | cons p ps ih =>
    intro c hc
    rcases ps with _ | ⟨q, qs⟩
    · exact Or.inl ⟨p, List.mem_singleton_self p, hc⟩
    · simp only [join_underscore] at hc
      rcases List.mem_append.mp hc with hc | hc
      · exact Or.inl ⟨p, List.mem_cons_self _ _, hc⟩
      · rcases List.mem_cons.mp hc with hc | hc
        · exact Or.inr hc
        · rcases ih c hc with ⟨p2, hp2, hcp⟩ | hu
          · exact Or.inl ⟨p2, List.mem_cons_of_mem _ hp2, hcp⟩
          · exact Or.inr hu

/-- Every character of `sanitize_part_base` lies in `[a-z0-9_]`,
provided the input is ASCII (Unicode alphanumerics are kept by the
code, so the guarantee fails beyond ASCII). -/
theorem sanitize_part_base_chars (s : List Char) (hs : ∀ c ∈ s, c.toNat ≤ 127) :
    ∀ c ∈ sanitize_part_base s, is_id_char c := by
  intro c hc
  simp only [sanitize_part_base] at hc
  split at hc
  · have hpart : ∀ c ∈ "part".data, is_id_char c := by decide
    exact hpart c hc
  · rcases join_underscore_chars _ c hc with ⟨p, hp, hcp⟩ | hu
    · have hps := (List.mem_filter.mp hp).1
      have hcm := split_underscore_chars _ p hps c hcp
      rcases List.mem_map.mp hcm with ⟨c0, hc0mem, hc0⟩
      rcases List.mem_map.mp hc0mem with ⟨c1, hc1mem, hc1⟩
      rw [← hc0, ← hc1]
      exact mapped_char_id_ascii c1 (hs c1 hc1mem)
    · exact Or.inr (Or.inr hu)

/-- `sanitize_part_base` never returns the empty string. -/
theorem sanitize_part_base_ne_nil (s : List Char) : sanitize_part_base s ≠ [] := by
  simp only [sanitize_part_base]
  split
  · decide
  · rename_i h
    simpa [List.isEmpty_iff] using h

/-- Decimal value of a digit string (left inverse used to show that
`nat_digits` is injective). -/
def val_digits (l : List Char) : Nat :=
  l.foldl (fun a c => a * 10 + (c.toNat - 48)) 0

theorem digit_char_toNat (d : Nat) (h : d ≤ 9) : (digit_char d).toNat = 48 + d := by
  have hv : Nat.isValidChar (48 + d) := Or.inl (by omega)
  unfold digit_char
  rw [Char.ofNat, dif_pos hv]
  rfl

theorem val_digits_append (l : List Char) (c : Char) :
    val_digits (l ++ [c]) = (val_digits l) * 10 + (c.toNat - 48) := by
  unfold val_digits
  rw [List.foldl_append]
  rfl

theorem nat_digits_aux_val :
    ∀ (fuel n : Nat), n ≤ fuel → val_digits (nat_digits_aux fuel n) = n := by
  intro fuel
  induction fuel with
  | zero =>
    intro n hn
    interval_cases n
    rfl
  | succ fuel ih =>
    intro n hn
    match n with
    | 0 => rfl
    | m + 1 =>
      rw [nat_digits_aux, val_digits_append]
      have hd : (m + 1) % 10 ≤ 9 := by omega
      rw [digit_char_toNat _ hd]
      have hq : (m + 1) / 10 ≤ fuel := by
        have := Nat.div_le_self (m + 1) 10
        have := Nat.div_lt_self (Nat.succ_pos m) (by omega : (1:Nat) < 10)
        omega
      rw [ih _ hq]
      have := Nat.div_add_mod (m + 1) 10
      omega

theorem val_nat_digits (n : Nat) : val_digits (nat_digits n) = n := by
  unfold nat_digits
  split
  · rename_i h
    subst h
    rfl
  · exact nat_digits_aux_val n n (Nat.le_refl n)

theorem nat_digits_inj {a b : Nat} (h : nat_digits a = nat_digits b) : a = b := by
  rw [← val_nat_digits a, ← val_nat_digits b, h]

theorem nat_digits_chars : ∀ (n : Nat), ∀ c ∈ nat_digits n, is_id_char c := by
  have haux : ∀ (fuel n : Nat), ∀ c ∈ nat_digits_aux fuel n, is_id_char c := by
    intro fuel
    induction fuel with
    | zero => intro n c hc; simp [nat_digits_aux] at hc
    | succ fuel ih =>
      intro n c hc
      match n with
      | 0 => simp [nat_digits_aux] at hc
      | m + 1 =>
        rw [nat_digits_aux] at hc
        rcases List.mem_append.mp hc with hc | hc
        · exact ih _ c hc
        · have hc' := List.mem_singleton.mp hc
          subst hc'
          have hd : (m + 1) % 10 ≤ 9 := by omega
          exact Or.inr (Or.inl (by rw [digit_char_toNat _ hd]; omega))
  intro n c hc
  unfold nat_digits at hc
  split at hc
  · have : c = '0' := List.mem_singleton.mp hc
    subst this
    exact Or.inr (Or.inl (by decide))
  · exact haux n n c hc

/-- The uniqueness loop never returns the empty string when seeded with
a non-empty base and candidate (independently of any character-set
assumption). -/
theorem unique_loop_ne_nil (base : List Char) (used : List String) :
    ∀ (fuel counter : Nat) (cur : List Char), cur ≠ [] →
    unique_loop base used cur counter fuel ≠ [] := by
  intro fuel
  induction fuel with
  | zero =>
    intro counter cur h1
    exact h1
  | succ fuel ih =>
    intro counter cur h1
    rw [unique_loop]
    split
    · apply ih
      simp [List.append_eq_nil]
    · exact h1

/-- The uniqueness loop always returns a non-empty, `[a-z0-9_]`-only
string when seeded with one. -/
theorem unique_loop_shape (base : List Char) (used : List String)
    (hb1 : base ≠ []) (hb2 : ∀ c ∈ base, is_id_char c) :
    ∀ (fuel counter : Nat) (cur : List Char), cur ≠ [] → (∀ c ∈ cur, is_id_char c) →
    unique_loop base used cur counter fuel ≠ [] ∧
    ∀ c ∈ unique_loop base used cur counter fuel, is_id_char c := by
  intro fuel
  induction fuel with
  | zero =>
    intro counter cur h1 h2
    exact ⟨h1, h2⟩
  | succ fuel ih =>
    intro counter cur h1 h2
    rw [unique_loop]
    split
    · apply ih
      · rcases base with _ | ⟨b, bs⟩
        · exact (hb1 rfl).elim
        · simp
      · intro c hc
        rcases List.mem_append.mp hc with hc | hc
        · exact hb2 c hc
        · rcases List.mem_cons.mp hc with hc | hc
          · exact hc ▸ Or.inr (Or.inr rfl)
          · exact nat_digits_chars _ c hc
    · exact ⟨h1, h2⟩

/-- A duplicate-free list included in another is no longer than it. -/
theorem nodup_subset_length_le {l l' : List String} (hn : l.Nodup)
    (hsub : ∀ x ∈ l, x ∈ l') : l.length ≤ l'.length := by
  classical
  calc l.length = l.toFinset.card := (List.toFinset_card_of_nodup hn).symm
    _ ≤ l'.toFinset.card := Finset.card_le_card
        (fun x hx => List.mem_toFinset.mpr (hsub x (List.mem_toFinset.mp hx)))
    _ ≤ l'.length := List.toFinset_card_le l'

/-- Core of the uniqueness argument: the loop returns a string outside
`used` whenever fewer used entries sit in the upcoming candidate window
than there is fuel, or the current candidate is already free. -/
theorem unique_loop_not_used (base : List Char) (used : List String) :
    ∀ (fuel counter : Nat) (cur : List Char),
    ((((List.range fuel).map
        (fun i => String.mk (base ++ '_' :: nat_digits (counter + i)))).filter
        (fun x => decide (x ∈ used))).length < fuel) ∨ String.mk cur ∉ used →
    String.mk (unique_loop base used cur counter fuel) ∉ used := by
  intro fuel
  induction fuel with
  | zero =>
    intro counter cur h
    rcases h with h | h
    · simp at h
    · exact h
  | succ fuel ih =>
    intro counter cur h
    rw [unique_loop]
    by_cases hin : String.mk cur ∈ used
    · rw [if_pos hin]
      rcases h with h | h
      · apply ih (counter + 1) (base ++ '_' :: nat_digits counter)
        by_cases hcand : String.mk (base ++ '_' :: nat_digits counter) ∈ used
        · left
          rw [List.range_succ_eq_map, List.map_cons, List.map_map] at h
          rw [List.filter_cons] at h
          rw [if_pos (by simpa using hcand)] at h
          simp only [List.length_cons] at h
          have hcong : (List.range fuel).map
                ((fun i => String.mk (base ++ '_' :: nat_digits (counter + i))) ∘ Nat.succ)
              = (List.range fuel).map
                (fun i => String.mk (base ++ '_' :: nat_digits (counter + 1 + i))) := by
            apply List.map_congr_left
            intro i _
            simp only [Function.comp_apply]
            have : counter + Nat.succ i = counter + 1 + i := by omega
            rw [this]
          rw [hcong] at h
          omega
        · right
          exact hcand
      · exact (h hin).elim
    · rw [if_neg hin]
      exact hin

/-- `_generate_unique_id` never returns an element of `used_names`. -/
theorem generate_unique_id_not_used (raw : String) (used : List String) :
    generate_unique_id raw used ∉ used := by
  have hmain := unique_loop_not_used (sanitize_part_base raw.data) used
      (used.length + 1) 1 (sanitize_part_base raw.data)
  apply hmain
  by_cases hb : String.mk (sanitize_part_base raw.data) ∈ used
  · left
    set base := sanitize_part_base raw.data with hbase
    have hinj : Function.Injective
        (fun i => String.mk (base ++ '_' :: nat_digits (1 + i))) := by
      intro i j hij
      have h1 := congrArg String.data hij
      have h2 := List.append_cancel_left h1
      injection h2 with _ h3
      have h4 := nat_digits_inj h3
      omega
    have hnodup : (((List.range (used.length + 1)).map
        (fun i => String.mk (base ++ '_' :: nat_digits (1 + i))))).Nodup :=
      (List.nodup_range _).map hinj
    have hsub : ∀ x ∈ (((List.range (used.length + 1)).map
        (fun i => String.mk (base ++ '_' :: nat_digits (1 + i)))).filter
        (fun x => decide (x ∈ used))), x ∈ used := by
      intro x hx
      exact of_decide_eq_true (List.mem_filter.mp hx).2
    have hle := nodup_subset_length_le (hnodup.filter _) hsub
    omega
  · right
    exact hb

/-- C4, the claim as stated, is false: Python's `str.lower` and
`str.isalnum` are Unicode-aware, so the non-ASCII input `"É"` is
lowercased to `"é"`, kept as alphanumeric, and returned — and `é` does
not match `^[a-z0-9_]+$`. -/
theorem claim_C4_counterexample :
    generate_unique_id "É" [] = "é" ∧
    'é' ∈ (generate_unique_id "É" []).data ∧
    ¬ is_id_char 'é' := by
  decide

/-- C4 (corrected): for every raw name and every used-id set, the
part-id sanitizer returns a non-empty string that is not in `usedIds`;
its characters all lie in `[a-z0-9_]` provided the raw name is ASCII —
for non-ASCII input, Unicode alphanumerics (such as `é`) are lowercased
and kept, escaping the claimed character set.  The production pipeline
(lowercase, collapse runs of non-alphanumerics to one underscore, strip
edge underscores, `"part"` fallback, smallest free `_k` suffix) is the
embedded `generate_unique_id` itself, with `str.lower`/`str.isalnum`
modelled on the ASCII and Latin-1 ranges. -/
theorem claim_C4 :
    ∀ (raw : String) (used : List String),
    generate_unique_id raw used ≠ "" ∧
    generate_unique_id raw used ∉ used ∧
    ((∀ c ∈ raw.data, c.toNat ≤ 127) →
      ∀ c ∈ (generate_unique_id raw used).data, is_id_char c) := by
  intro raw used
  refine ⟨?_, generate_unique_id_not_used raw used, ?_⟩
  · intro hc
    exact unique_loop_ne_nil (sanitize_part_base raw.data) used
      (used.length + 1) 1 (sanitize_part_base raw.data)
      (sanitize_part_base_ne_nil raw.data) (congrArg String.data hc)
  · intro hascii c hc
    exact (unique_loop_shape (sanitize_part_base raw.data) used
      (sanitize_part_base_ne_nil raw.data) (sanitize_part_base_chars raw.data hascii)
      (used.length + 1) 1 (sanitize_part_base raw.data)
      (sanitize_part_base_ne_nil raw.data)
      (sanitize_part_base_chars raw.data hascii)).2 c hc

/-- Closed instance of `claim_C4`: an ASCII name colliding with an
existing id gets the smallest free numeric suffix, stays outside the
used set, and matches the character set. -/
theorem claim_C4_witness :
    generate_unique_id "Part 1!" ["part_1"] = "part_1_1" ∧
    generate_unique_id "Part 1!" ["part_1"] ∉ ["part_1"] ∧
    generate_unique_id "Part 1!" ["part_1"] ≠ "" ∧
    (∀ c ∈ (generate_unique_id "Part 1!" ["part_1"]).data, is_id_char c) :=
  ⟨by decide, (claim_C4 "Part 1!" ["part_1"]).2.1, (claim_C4 "Part 1!" ["part_1"]).1,
   (claim_C4 "Part 1!" ["part_1"]).2.2 (by decide)⟩

/-! ### C5 — round-trip of the builder -/

/-- The sanitized prim name actually used for a part. -/
def built_name (part_info : List PInfo) (part_id : String) : String :=
  sanitize_prim_name (effective_name part_info part_id)

theorem py_replace_uu_ne_nil {s : List Char} (h : s ≠ []) : py_replace_uu s ≠ [] := by
  rcases s with _ | ⟨c, rest⟩
  · exact (h rfl).elim
  · rw [py_replace_uu.eq_def]
    split
    · simp
    · simp
    · rename_i heq
      cases heq

theorem collapse_uu_fuel_ne_nil :
    ∀ (fuel : Nat) (s : List Char), s ≠ [] → collapse_uu_fuel fuel s ≠ [] := by
  intro fuel
  induction fuel with
  | zero => intro s h; exact h
  | succ fuel ih =>
    intro s h
    rw [collapse_uu_fuel]
    split
    · exact ih _ (py_replace_uu_ne_nil h)
    · exact h

theorem py_replace_uu_subset : ∀ (s : List Char), ∀ c ∈ py_replace_uu s, c ∈ s := by
  intro s
  induction s using py_replace_uu.induct with
  | case1 rest ih =>
    intro c hc
    simp only [py_replace_uu] at hc
    rcases List.mem_cons.mp hc with hc | hc
    · exact hc ▸ List.mem_cons_self _ _
    · exact List.mem_cons_of_mem _ (List.mem_cons_of_mem _ (ih c hc))
  | case2 a rest hne ih =>
    intro c hc
    rw [py_replace_uu.eq_def] at hc
    split at hc
    · rename_i rest2 heq
      injection heq with h1 h2
      exact (hne rest2 h1 h2).elim
    · rename_i c2 rest2 heq
      injection heq with h1 h2
      subst h1
      subst h2
      rcases List.mem_cons.mp hc with hc | hc
      · exact hc ▸ List.mem_cons_self _ _
      · exact List.mem_cons_of_mem _ (ih c hc)
    · rename_i heq
      cases heq
  | case3 =>
    intro c hc
    cases hc

theorem collapse_uu_fuel_subset :
    ∀ (fuel : Nat) (s : List Char), ∀ c ∈ collapse_uu_fuel fuel s, c ∈ s := by
  intro fuel
  induction fuel with
  | zero => intro s c hc; exact hc
  | succ fuel ih =>
    intro s c hc
    rw [collapse_uu_fuel] at hc
    split at hc
    · exact py_replace_uu_subset s c (ih _ c hc)
    · exact hc

theorem keep_char_ne_slash (c : Char) :
    (if c.isAlphanum ∨ c = '_' then c else '_') ≠ '/' := by
  split
  · rename_i h
    intro he
    rw [he] at h
    exact absurd h (by decide)
  · decide

theorem sanitize_prim_name_ne_empty (s : String) : sanitize_prim_name s ≠ "" := by
  simp only [sanitize_prim_name]
  intro h
  have hd := congrArg String.data h
  refine collapse_uu_fuel_ne_nil _ _ ?_ hd
  split
  · decide
  · rename_i h2
    simpa [List.isEmpty_iff] using h2

theorem sanitize_prim_name_no_slash (s : String) : '/' ∉ (sanitize_prim_name s).data := by
  simp only [sanitize_prim_name]
  intro hmem
  have hx := collapse_uu_fuel_subset _ _ '/' hmem
  revert hx
  split
  · decide
  · rename_i h2
    split
    · rename_i heq
      intro hx
      cases hx
    · rename_i c rest heq
      intro hx
      have hin : '/' ∈ c :: rest := by
        split at hx
        · rcases List.mem_cons.mp hx with hx | hx
          · cases hx
          · exact hx
        · exact hx
      have hmap : '/' ∈ s.data.map (fun c => if c.isAlphanum ∨ c = '_' then c else '_') := by
        rw [heq]
        exact hin

      rcases List.mem_map.mp hmap with ⟨c1, _, hc1⟩
      exact keep_char_ne_slash c1 hc1

/-- Appending a non-empty string changes a string. -/
theorem str_ne_append {a b : String} (hb : b.data ≠ []) : a ≠ a ++ b := by
  intro h
  have hd := congrArg String.data h
  rw [String.data_append] at hd
  have := congrArg List.length hd
  rw [List.length_append] at this
  exact hb (List.eq_nil_of_length_eq_zero (by omega))

/-- Segment paths under the same parent are injective in the segment. -/
theorem seg_path_inj {root e e2 : String} (h : root ++ "/" ++ e = root ++ "/" ++ e2) :
    e = e2 := by
  have hd := congrArg String.data h
  simp only [String.data_append] at hd
  have hd2 : e.data = e2.data := by simpa [List.append_assoc] using hd
  exact String.ext_iff.mpr hd2

/-- A slash-free segment path never equals a `/mesh` child path. -/
theorem seg_ne_mesh {root e e2 : String} (he : '/' ∉ e.data) :
    root ++ "/" ++ e ≠ (root ++ "/" ++ e2) ++ "/mesh" := by
  intro h
  have hd := congrArg String.data h
  simp only [String.data_append] at hd
  have hd2 : e.data = e2.data ++ '/' :: "mesh".data := by
    simpa [List.append_assoc] using hd
  apply he
  rw [hd2]
  exact List.mem_append.mpr (Or.inr (List.mem_cons_self _ _))

/-- Mesh child paths are injective in the segment. -/
theorem mesh_path_inj {root e e2 : String}
    (h : (root ++ "/" ++ e) ++ "/mesh" = (root ++ "/" ++ e2) ++ "/mesh") : e = e2 := by
  have hd := congrArg String.data h
  simp only [String.data_append] at hd
  have hd2 : e.data = e2.data := by simpa [List.append_assoc] using hd
  exact String.ext_iff.mpr hd2

/-- The root prim path is no segment path. -/
theorem root_ne_seg {root e : String} : root ≠ root ++ "/" ++ e := by
  rw [String.append_assoc]
  refine str_ne_append ?_
  simp [String.data_append]

/-- The root prim path is no mesh child path. -/
theorem root_ne_mesh {root e : String} : root ≠ (root ++ "/" ++ e) ++ "/mesh" := by
  rw [String.append_assoc, String.append_assoc]
  refine str_ne_append ?_
  simp [String.data_append]

theorem is_valid_prim_eq_false {st : Stage} {path : String}
    (h : ∀ q ∈ st.prims, q.1 ≠ path) : is_valid_prim st path = false := by
  unfold is_valid_prim
  rw [List.any_eq_false]
  intro q hq
  simpa using h q hq

theorem define_prim_fresh {st : Stage} {path ty : String}
    (h : ∀ q ∈ st.prims, q.1 ≠ path) :
    define_prim st path ty = { st with prims := st.prims ++ [(path, ty)] } := by
  unfold define_prim
  rw [is_valid_prim_eq_false h]
  simp

/-- Structure of the builder loop: when the sanitized names are pairwise
distinct and fresh for the incoming stage, each mesh entry contributes
exactly one transform prim and one mesh child prim, in order, and the
path map gains exactly one entry per mesh id. -/
theorem build_loop_struct (part_info : List PInfo) (root : String) :
    ∀ (meshes : List (String × MeshData)) (st : Stage) (acc : List (String × String)),
    (∀ kv ∈ meshes, ∀ q ∈ st.prims,
        q.1 ≠ root ++ "/" ++ built_name part_info kv.1 ∧
        q.1 ≠ (root ++ "/" ++ built_name part_info kv.1) ++ "/mesh") →
    (meshes.map (fun kv => built_name part_info kv.1)).Nodup →
    (build_loop part_info root st acc meshes).1.prims
      = st.prims ++ meshes.flatMap (fun kv =>
          [(root ++ "/" ++ built_name part_info kv.1, "Xform"),
           ((root ++ "/" ++ built_name part_info kv.1) ++ "/mesh", "Mesh")]) ∧
    (build_loop part_info root st acc meshes).2
      = acc ++ meshes.map (fun kv => (kv.1, root ++ "/" ++ built_name part_info kv.1)) := by
  intro meshes
  induction meshes with
  | nil =>
    intro st acc hfresh hnodup
    simp [build_loop]
  | cons kv rest ih =>
    rcases kv with ⟨part_id, data⟩
    intro st acc hfresh hnodup
    have hhead := hfresh (part_id, data) (List.mem_cons_self _ _)
    have hslash : '/' ∉ (built_name part_info part_id).data :=
      sanitize_prim_name_no_slash _
    have hx1 : define_prim st (root ++ "/" ++ built_name part_info part_id) "Xform"
        = { st with prims := st.prims ++
            [(root ++ "/" ++ built_name part_info part_id, "Xform")] } :=
      define_prim_fresh (fun q hq => (hhead q hq).1)
    have hx2 : define_prim
          { st with prims := st.prims ++
              [(root ++ "/" ++ built_name part_info part_id, "Xform")] }
          ((root ++ "/" ++ built_name part_info part_id) ++ "/mesh") "Mesh"
        = { st with prims := st.prims ++
            [(root ++ "/" ++ built_name part_info part_id, "Xform"),
             ((root ++ "/" ++ built_name part_info part_id) ++ "/mesh", "Mesh")] } := by
      rw [define_prim_fresh]
      · simp
      · intro q hq
        rcases List.mem_append.mp hq with hq | hq
        · exact (hhead q hq).2
        · have : q = (root ++ "/" ++ built_name part_info part_id, "Xform") :=
            List.mem_singleton.mp hq
          subst this
          refine str_ne_append ?_
          simp [String.data_append]
    have hstep : build_loop part_info root st acc ((part_id, data) :: rest)
        = build_loop part_info root
            { st with prims := st.prims ++
                [(root ++ "/" ++ built_name part_info part_id, "Xform"),
                 ((root ++ "/" ++ built_name part_info part_id) ++ "/mesh", "Mesh")] }
            (acc ++ [(part_id, root ++ "/" ++ built_name part_info part_id)]) rest := by
      simp only [build_loop, add_mesh_prim, built_name] at hx1 hx2 ⊢
      rw [hx1, hx2]
    rw [hstep]
    have hnodup2 := hnodup
    rw [List.map_cons] at hnodup2
    have hnd := List.nodup_cons.mp hnodup2
    have hname_ne : ∀ kv2 ∈ rest,
        built_name part_info kv2.1 ≠ built_name part_info part_id := by
      intro kv2 hkv2 heq
      exact hnd.1 (List.mem_map.mpr ⟨kv2, hkv2, heq⟩)
    have hfresh2 : ∀ kv2 ∈ rest, ∀ q ∈ ({ st with prims := st.prims ++
          [(root ++ "/" ++ built_name part_info part_id, "Xform"),
           ((root ++ "/" ++ built_name part_info part_id) ++ "/mesh", "Mesh")] } : Stage).prims,
        q.1 ≠ root ++ "/" ++ built_name part_info kv2.1 ∧
        q.1 ≠ (root ++ "/" ++ built_name part_info kv2.1) ++ "/mesh" := by
      intro kv2 hkv2 q hq
      rcases List.mem_append.mp hq with hq | hq
      · exact hfresh kv2 (List.mem_cons_of_mem _ hkv2) q hq
      · have hslash2 : '/' ∉ (built_name part_info kv2.1).data :=
          sanitize_prim_name_no_slash _
      
        rcases List.mem_cons.mp hq with hq | hq
        · subst hq
          constructor
          · intro heq
            exact hname_ne kv2 hkv2 (seg_path_inj heq).symm
          · exact seg_ne_mesh hslash
        · have : q = ((root ++ "/" ++ built_name part_info part_id) ++ "/mesh", "Mesh") :=
            List.mem_singleton.mp hq
          subst this
          constructor
          · exact (seg_ne_mesh hslash2).symm
          · intro heq
            exact hname_ne kv2 hkv2 (mesh_path_inj heq).symm
    have hrest := ih { st with prims := st.prims ++
          [(root ++ "/" ++ built_name part_info part_id, "Xform"),
           ((root ++ "/" ++ built_name part_info part_id) ++ "/mesh", "Mesh")] }
        (acc ++ [(part_id, root ++ "/" ++ built_name part_info part_id)]) hfresh2 hnd.2
    refine ⟨?_, ?_⟩
    · rw [hrest.1]
      simp [List.append_assoc]
    · rw [hrest.2]
      simp [List.append_assoc]

theorem build_loop_defaultPrimPath (part_info : List PInfo) (root : String) :
    ∀ (meshes : List (String × MeshData)) (st : Stage) (acc : List (String × String)),
    (build_loop part_info root st acc meshes).1.defaultPrimPath = st.defaultPrimPath := by
  intro meshes
  induction meshes with
  | nil => intro st acc; rfl
  | cons kv rest ih =>
    rcases kv with ⟨part_id, data⟩
    intro st acc
    rw [build_loop]
    rw [ih]
    simp only [add_mesh_prim, define_prim]
    split_ifs <;> rfl

theorem initial_prims (fn mn : String) :
    ((add_physics_scene (create_stage fn mn)).1).prims
      = [((create_stage fn mn).defaultPrimPath, "Xform"),
         ((create_stage fn mn).defaultPrimPath ++ "/" ++ "PhysicsScene", "PhysicsScene")] := by
  simp only [add_physics_scene]
  rw [define_prim_fresh]
  · rfl
  · intro q hq
    have : q = ((create_stage fn mn).defaultPrimPath, "Xform") := List.mem_singleton.mp hq
    subst this
    exact root_ne_seg

theorem flat_filter_xform (part_info : List PInfo) (root : String) :
    ∀ meshes : List (String × MeshData),
    ((meshes.flatMap (fun kv =>
        [(root ++ "/" ++ built_name part_info kv.1, "Xform"),
         ((root ++ "/" ++ built_name part_info kv.1) ++ "/mesh", "Mesh")])).filter
      (fun p => p.2 == "Xform" && p.1 != root))
      = meshes.map (fun kv => (root ++ "/" ++ built_name part_info kv.1, "Xform")) := by
  intro meshes
  induction meshes with
  | nil => rfl
  | cons kv rest ih =>
    rw [List.flatMap_cons, List.filter_append, ih]
    have h1 : ((root ++ "/" ++ built_name part_info kv.1 != root) : Bool) = true :=
      bne_iff_ne.mpr (Ne.symm root_ne_seg)
    simp [List.filter_cons, h1]

theorem flat_filter_mesh (part_info : List PInfo) (root : String) :
    ∀ meshes : List (String × MeshData),
    ((meshes.flatMap (fun kv =>
        [(root ++ "/" ++ built_name part_info kv.1, "Xform"),
         ((root ++ "/" ++ built_name part_info kv.1) ++ "/mesh", "Mesh")])).filter
      (fun p => p.2 == "Mesh"))
      = meshes.map (fun kv => ((root ++ "/" ++ built_name part_info kv.1) ++ "/mesh", "Mesh")) := by
  intro meshes
  induction meshes with
  | nil => rfl
  | cons kv rest ih =>
    rw [List.flatMap_cons, List.filter_append, ih]
    congr 1

theorem flat_filter_scene (part_info : List PInfo) (root : String) :
    ∀ meshes : List (String × MeshData),
    ((meshes.flatMap (fun kv =>
        [(root ++ "/" ++ built_name part_info kv.1, "Xform"),
         ((root ++ "/" ++ built_name part_info kv.1) ++ "/mesh", "Mesh")])).filter
      (fun p => p.2 == "PhysicsScene")) = [] := by
  intro meshes
  induction meshes with
  | nil => rfl
  | cons kv rest ih =>
    rw [List.flatMap_cons, List.filter_append, ih]
    rfl

/-- C5 (corrected): provided the sanitized display names of the mesh
entries are pairwise distinct and none equals `PhysicsScene`, building a
document from N mesh entries yields exactly N transform prims under the
root (one per entry, at `root/<name>`), exactly one physics-scene prim,
and exactly N mesh prims — each being the single `/mesh` geometry child
of its transform — and the returned path map has exactly one entry per
mesh id, in insertion order. -/
theorem claim_C5 :
    ∀ (fn mn : String) (mesh_data : List (String × MeshData)) (part_info : List PInfo)
      (st : Stage) (pm : List (String × String)) (root : String),
    build_from_parts fn mn mesh_data part_info = (st, pm) →
    root = st.defaultPrimPath →
    (mesh_data.map (fun kv => built_name part_info kv.1)).Nodup →
    (∀ kv ∈ mesh_data, built_name part_info kv.1 ≠ "PhysicsScene") →
    st.prims.filter (fun p => p.2 == "Xform" && p.1 != root)
      = mesh_data.map (fun kv => (root ++ "/" ++ built_name part_info kv.1, "Xform")) ∧
    st.prims.filter (fun p => p.2 == "PhysicsScene")
      = [(root ++ "/" ++ "PhysicsScene", "PhysicsScene")] ∧
    st.prims.filter (fun p => p.2 == "Mesh")
      = mesh_data.map (fun kv =>
          ((root ++ "/" ++ built_name part_info kv.1) ++ "/mesh", "Mesh")) ∧
    pm = mesh_data.map (fun kv => (kv.1, root ++ "/" ++ built_name part_info kv.1)) := by
  intro fn mn mesh_data part_info st pm root hbuild hroot hnodup hscene
  simp only [build_from_parts] at hbuild
  set st0 := (add_physics_scene (create_stage fn mn)).1 with hst0
  set root0 := (create_stage fn mn).defaultPrimPath with hroot0
  have hdp0 : st0.defaultPrimPath = root0 := by
    rw [hst0]
    simp only [add_physics_scene, define_prim]
    split_ifs <;> rfl
  have hfresh : ∀ kv ∈ mesh_data, ∀ q ∈ st0.prims,
      q.1 ≠ root0 ++ "/" ++ built_name part_info kv.1 ∧
      q.1 ≠ (root0 ++ "/" ++ built_name part_info kv.1) ++ "/mesh" := by
    intro kv hkv q hq
    rw [hst0, initial_prims] at hq
    rcases List.mem_cons.mp hq with hq | hq
    · subst hq
      exact ⟨root_ne_seg, root_ne_mesh⟩
    · have : q = (root0 ++ "/" ++ "PhysicsScene", "PhysicsScene") := List.mem_singleton.mp hq
      subst this
      constructor
      · intro heq
        exact hscene kv hkv (seg_path_inj heq).symm
      · exact seg_ne_mesh (by decide)
  have hstruct := build_loop_struct part_info root0 mesh_data st0 [] hfresh hnodup
  have hst : st = (build_loop part_info root0 st0 [] mesh_data).1 :=
    (congrArg Prod.fst hbuild).symm
  have hpm : pm = (build_loop part_info root0 st0 [] mesh_data).2 :=
    (congrArg Prod.snd hbuild).symm
  have hdp : st.defaultPrimPath = root0 := by
    rw [hst, build_loop_defaultPrimPath, hdp0]
  have hrootr : root = root0 := by rw [hroot, hdp]
  subst hrootr
  have hprims : st.prims = st0.prims ++ mesh_data.flatMap (fun kv =>
      [(root0 ++ "/" ++ built_name part_info kv.1, "Xform"),
       ((root0 ++ "/" ++ built_name part_info kv.1) ++ "/mesh", "Mesh")]) := by
    rw [hst]
    exact hstruct.1
  have hprims0 : st0.prims = [(root0, "Xform"),
      (root0 ++ "/" ++ "PhysicsScene", "PhysicsScene")] := by
    rw [hst0]
    exact initial_prims fn mn
  refine ⟨?_, ?_, ?_, ?_⟩
  · rw [hprims, hprims0, List.filter_append, flat_filter_xform]
    have h0 : (([(root0, "Xform"),
        (root0 ++ "/" ++ "PhysicsScene", "PhysicsScene")] : List (String × String)).filter
        (fun p => p.2 == "Xform" && p.1 != root0)) = [] := by
      simp [List.filter_cons]
    rw [h0, List.nil_append]
  · rw [hprims, hprims0, List.filter_append, flat_filter_scene]
    simp [List.filter_cons]
  · rw [hprims, hprims0, List.filter_append, flat_filter_mesh]
    have h0 : (([(root0, "Xform"),
        (root0 ++ "/" ++ "PhysicsScene", "PhysicsScene")] : List (String × String)).filter
        (fun p => p.2 == "Mesh")) = [] := by
      simp [List.filter_cons]
    rw [h0, List.nil_append]
  · rw [hpm]
    exact hstruct.2

/-- Fixture: an empty mesh payload. -/
def c5_mesh : MeshData := { vertices := [], faces := [], normals := none }

/-- C5, the claim as stated, is false: two distinct mesh ids whose
display names sanitize to the same prim name (`"x"` for both) produce a
single transform prim, not two — `Define` reuses the existing prim at
the colliding path — so an N-entry mesh map need not yield N transform
nodes. -/
theorem claim_C5_counterexample :
    (((build_from_parts "f" "m" [("a", c5_mesh), ("b", c5_mesh)]
        [⟨"a", some "x"⟩, ⟨"b", some "x"⟩]).1.prims.filter
        (fun p => p.2 == "Xform" && p.1 != "/m")).length = 1) ∧
    ([("a", c5_mesh), ("b", c5_mesh)] : List (String × MeshData)).length = 2 := by
  decide

/-- Fixtures for the closed instance of `claim_C5`. -/
def c5w_stage : Stage :=
  mk_stage "/m" [("/m", "Xform"), ("/m/PhysicsScene", "PhysicsScene"),
    ("/m/a", "Xform"), ("/m/a/mesh", "Mesh"), ("/m/b", "Xform"), ("/m/b/mesh", "Mesh")]

def c5w_pm : List (String × String) := [("a", "/m/a"), ("b", "/m/b")]

/-- Closed instance of `claim_C5`: two distinct-named mesh entries yield
two transform prims, one physics scene, two mesh children, and a
two-entry path map. -/
theorem claim_C5_witness :
    build_from_parts "f" "m" [("a", c5_mesh), ("b", c5_mesh)] [] = (c5w_stage, c5w_pm) ∧
    c5w_stage.prims.filter (fun p => p.2 == "Xform" && p.1 != "/m")
      = [("a", c5_mesh), ("b", c5_mesh)].map
          (fun kv => ("/m" ++ "/" ++ built_name [] kv.1, "Xform")) ∧
    c5w_pm = [("a", c5_mesh), ("b", c5_mesh)].map
          (fun kv => (kv.1, "/m" ++ "/" ++ built_name [] kv.1)) := by
  have hb : build_from_parts "f" "m" [("a", c5_mesh), ("b", c5_mesh)] []
      = (c5w_stage, c5w_pm) := by decide
  have h := claim_C5 "f" "m" [("a", c5_mesh), ("b", c5_mesh)] [] c5w_stage c5w_pm "/m"
      hb (by decide) (by decide) (by decide)
  exact ⟨hb, h.1, h.2.2.2⟩

end AMap
